import Mathlib

/-!
Verification development for the Monkey Stars bot core: a shallow embedding of
the data model and operations of `database.py`, `games.py`, `config.py` and the
balance-affecting handlers of `bot.py`, together with theorems settling the
specification claims about them.

Modelling conventions:
* Python floats are modelled as rationals; the decimal literals of the source
  are exactly representable.
* `datetime.now().timestamp()` is modelled by a logical clock stored in the
  `Store`, advanced by one on every successful store mutation.  Only the
  relative order of timestamps matters for the claims.
* Randomness (`random.random()`, `random.uniform`, `random.randint`,
  `random.choice`) is an explicit input: each draw is a separate rational
  parameter in the interval from 0 to 1 (or an index parameter), threaded in
  the order the source consumes draws.
* The Supabase client is modelled by in-memory lists.  In the failure-free
  semantics every store call succeeds; `handle_withdraw_fallible` additionally
  models a call that raises or returns no rows (caught by the except blocks of
  `database.py`, which turn it into `False` / `None`).
* Display texts (message strings, result texts) are presentation-only and are
  either omitted or replaced by short ASCII descriptions.  No claim depends on
  the content of a description string.
* A Python integer used in a truthiness test (`if referrer_id`,
  `if last_click`) is falsy when 0; the embedding mirrors this where the source
  relies on it.
-/

namespace MonkeyStars

/- Constants of `config.py` (class Config) that the claims depend on. -/
namespace Config

def CLICK_REWARD : ℚ := mkRat 2 10   -- 0.2 in the source

def CLICK_COOLDOWN : Nat := 3600

def REFERRAL_REWARD_REFERRER : ℚ := 3   -- 3.0 in the source

def REFERRAL_REWARD_REFEREE : ℚ := 2   -- 2.0 in the source

def CLICK_REFERRAL_PERCENT : ℚ := 10

def WITHDRAWAL_AMOUNTS : List ℚ := [15, 25, 50, 100]

def flip_win_chance : ℚ := mkRat 49 100   -- 0.49 in the source

def flip_multiplier : ℚ := 2   -- 2.0 in the source

def flip_special_event_chance : ℚ := mkRat 15 1000   -- 0.015 in the source

def crash_instant_crash_chance : ℚ := mkRat 6 10   -- 0.6 in the source

def crash_low_multiplier_lo : ℚ := 1   -- 1.0 in the source

def crash_low_multiplier_hi : ℚ := mkRat 11 10   -- 1.1 in the source

def crash_high_multiplier_chance : ℚ := mkRat 2 100   -- 0.02 in the source

def crash_min_high_multiplier : ℚ := mkRat 15 10   -- 1.5 in the source

def slot_win_multiplier : ℚ := 20

def dice_multiplier : ℚ := 3   -- 3.0 in the source

def jackpot_ticket_price : ℚ := 1   -- 1.0 in the source

def jackpot_win_chance : ℚ := mkRat 1 100   -- 0.01 in the source

def jackpot_multiplier : ℚ := 100   -- 100.0 in the source

def MIN_BETS_flip : ℚ := 1   -- 1.0 in the source

def MIN_BETS_dice : ℚ := 1   -- 1.0 in the source

end Config

/-- Row of the `users` table (`user_data` in `Database.create_user`). -/
structure User where
  user_id : Nat
  username : String
  referrer_id : Option Nat
  created_at : Nat
  balance : ℚ
  last_click : Option Nat
  total_wagered : ℚ
  games_played : Nat
  games_won : Nat
deriving DecidableEq

/-- Row of the `transactions` table (`Database.add_transaction`). -/
structure Txn where
  user_id : Nat
  amount : ℚ
  type : String
  description : String
  created_at : Nat
deriving DecidableEq

/-- Row of the `withdrawals` table (`Database.create_withdrawal`). -/
structure Withdrawal where
  id : Nat
  user_id : Nat
  amount : ℚ
  status : String
  created_at : Nat
deriving DecidableEq

/-- Row of the `user_sponsors` table (`Database.update_user_sponsor_status`). -/
structure SponsorSub where
  user_id : Nat
  sponsor_id : Nat
  is_subscribed : Bool
  last_check : Nat
deriving DecidableEq

/-- The durable store behind the `Database` class: the four tables plus the
sponsor table, and the logical clock modelling wall-clock timestamps. -/
structure Store where
  users : List User
  transactions : List Txn
  withdrawals : List Withdrawal
  sponsors : List Nat
  user_sponsors : List SponsorSub
  clock : Nat
deriving DecidableEq

/-- Database.get_user: select the row with the given user_id, if any. -/
def get_user (s : Store) (uid : Nat) : Option User :=
  s.users.find? (fun u => u.user_id == uid)

/-- Supabase upsert with on_conflict on user_id: replace the existing row, or
insert a new one. -/
def upsertUser (users : List User) (u : User) : List User :=
  if users.any (fun v => v.user_id == u.user_id) then
    users.map (fun v => if v.user_id == u.user_id then u else v)
  else users ++ [u]

/-- Database.update_balance: read the current balance, write the updated one.
Returns the unchanged store and false when the user row is absent. -/
def update_balance (s : Store) (uid : Nat) (amount : ℚ) : Store × Bool :=
  match get_user s uid with
  | none => (s, false)
  | some u =>
    ({ s with
        users := s.users.map (fun v =>
          if v.user_id == uid then { v with balance := u.balance + amount } else v),
        clock := s.clock + 1 }, true)

/-- Database.update_last_click: update the last_click column of the row. -/
def update_last_click (s : Store) (uid : Nat) (timestamp : Nat) : Store × Bool :=
  if s.users.any (fun v => v.user_id == uid) then
    ({ s with
        users := s.users.map (fun v =>
          if v.user_id == uid then { v with last_click := some timestamp } else v),
        clock := s.clock + 1 }, true)
  else (s, false)

/-- Database.update_game_stats: bump total_wagered and games_played, and
games_won when the round was won. -/
def update_game_stats (s : Store) (uid : Nat) (wagered : ℚ) (won : Bool) : Store × Bool :=
  match get_user s uid with
  | none => (s, false)
  | some u =>
    ({ s with
        users := s.users.map (fun v =>
          if v.user_id == uid then
            { v with
                total_wagered := u.total_wagered + wagered,
                games_played := u.games_played + 1,
                games_won := if won then u.games_won + 1 else u.games_won }
          else v),
        clock := s.clock + 1 }, true)

/-- Database.add_transaction: insert one transaction row stamped with the
current time. -/
def add_transaction (s : Store) (uid : Nat) (amount : ℚ) (ty : String)
    (description : String) : Store × Bool :=
  ({ s with
      transactions := s.transactions ++
        [{ user_id := uid, amount := amount, type := ty,
           description := description, created_at := s.clock }],
      clock := s.clock + 1 }, true)

/-- Database.create_user: upsert the fresh user row, then, when a referrer id
was passed and the referrer row exists, credit the referral bonuses with their
transactions (the referrer is looked up after the upsert, as in the source).
A referrer id of 0 is falsy in Python; the embedding uses `Option Nat` and the
source never passes 0. -/
def create_user (s : Store) (uid : Nat) (username : String)
    (referrer_id : Option Nat) : Store × Bool :=
  let user_data : User :=
    { user_id := uid,
      username := if username == "" then "user_" ++ toString uid else username,
      referrer_id := referrer_id,
      created_at := s.clock,
      balance := 0,
      last_click := none,
      total_wagered := 0,
      games_played := 0,
      games_won := 0 }
  let s1 : Store := { s with users := upsertUser s.users user_data, clock := s.clock + 1 }
  match referrer_id with
  | some rid =>
    match get_user s1 rid with
    | some _ =>
      let s2 := (update_balance s1 rid Config.REFERRAL_REWARD_REFERRER).1
      let s3 := (add_transaction s2 rid Config.REFERRAL_REWARD_REFERRER
                  "referral_bonus" "invite bonus").1
      let s4 := (update_balance s3 uid Config.REFERRAL_REWARD_REFEREE).1
      let s5 := (add_transaction s4 uid Config.REFERRAL_REWARD_REFEREE
                  "referral_bonus" "signup via referral link").1
      (s5, true)
    | none => (s1, true)
  | none => (s1, true)

/-- Database.update_user_sponsor_status: upsert on (user_id, sponsor_id). -/
def update_user_sponsor_status (s : Store) (uid sid : Nat) (is_sub : Bool) :
    Store × Bool :=
  let row : SponsorSub :=
    { user_id := uid, sponsor_id := sid, is_subscribed := is_sub, last_check := s.clock }
  if s.user_sponsors.any (fun r => r.user_id == uid && r.sponsor_id == sid) then
    ({ s with
        user_sponsors := s.user_sponsors.map (fun r =>
          if r.user_id == uid && r.sponsor_id == sid then row else r),
        clock := s.clock + 1 }, true)
  else
    ({ s with user_sponsors := s.user_sponsors ++ [row], clock := s.clock + 1 }, true)

/-- Database.get_user_sponsors_status: every sponsor paired with the stored
subscription flag, defaulting to false. -/
def get_user_sponsors_status (s : Store) (uid : Nat) : List (Nat × Bool) :=
  s.sponsors.map (fun sid =>
    (sid,
      match s.user_sponsors.find? (fun r => r.user_id == uid && r.sponsor_id == sid) with
      | some r => r.is_subscribed
      | none => false))

/-- Loop body of Database.get_user_referrals: a referral is active when it is
subscribed to at least one sponsor. -/
def user_has_active_sub (s : Store) (uid : Nat) : Bool :=
  (get_user_sponsors_status s uid).any (fun p => p.2)

/-- Database.get_user_referrals: (total, active) direct referrals. -/
def get_user_referrals (s : Store) (uid : Nat) : Nat × Nat :=
  let referrals := s.users.filter (fun u => u.referrer_id == some uid)
  (referrals.length, (referrals.filter (fun u => user_has_active_sub s u.user_id)).length)

/-- Database.create_withdrawal: insert a pending withdrawal row; the id models
the auto-assigned primary key. -/
def create_withdrawal (s : Store) (uid : Nat) (amount : ℚ) : Store × Option Withdrawal :=
  let w : Withdrawal :=
    { id := s.withdrawals.length, user_id := uid, amount := amount,
      status := "pending", created_at := s.clock }
  ({ s with withdrawals := s.withdrawals ++ [w], clock := s.clock + 1 }, some w)

/-- Database.add_sponsor: insert a sponsor row (id models the primary key). -/
def add_sponsor (s : Store) : Store × Bool :=
  ({ s with sponsors := s.sponsors ++ [s.sponsors.length], clock := s.clock + 1 }, true)

/-- GameEngine.play_flip of `games.py`, as (win, payout).  The first draw is
the special event, the second the main draw; the chosen side only affects the
display text. -/
def play_flip (bet : ℚ) (choice : String) (r_special r_main : ℚ) : Bool × ℚ :=
  if r_special < Config.flip_special_event_chance then (false, 0)
  else if r_main < Config.flip_win_chance then (true, bet * Config.flip_multiplier)
  else
    let _ := choice
    (false, 0)

/-- random.uniform lo hi at uniform sample r in the unit interval. -/
def uniformDraw (lo hi r : ℚ) : ℚ := lo + r * (hi - lo)

/-- GameEngine.play_crash of `games.py`, as (win, payout).  Draws consumed in
source order: instant-crash draw, high-multiplier draw, uniform multiplier
draw, take-profit draw. -/
def play_crash (bet : ℚ) (r_instant r_high r_unif r_take : ℚ) : Bool × ℚ :=
  if r_instant < Config.crash_instant_crash_chance then (false, 0)
  else if r_high < Config.crash_high_multiplier_chance then
    let multiplier := uniformDraw Config.crash_min_high_multiplier 5 r_unif
    (true, bet * multiplier)
  else
    let multiplier :=
      uniformDraw Config.crash_low_multiplier_lo Config.crash_low_multiplier_hi r_unif
    if 1 < multiplier ∧ r_take < mkRat 8 10 then (true, bet * multiplier)
    else (false, 0)

/-- The eight slot symbols of `games.py`, renamed to ASCII identifiers. -/
def slotSymbols : List String :=
  ["banana", "monkey", "star", "gem", "target", "money", "slot", "clover"]

/-- GameEngine.play_slot of `games.py`, as (win, payout); the three
random.choice draws are modelled as indices reduced mod 8. -/
def play_slot (bet : ℚ) (i1 i2 i3 : Nat) : Bool × ℚ :=
  let reel1 := slotSymbols.getD (i1 % slotSymbols.length) ""
  let reel2 := slotSymbols.getD (i2 % slotSymbols.length) ""
  let reel3 := slotSymbols.getD (i3 % slotSymbols.length) ""
  if reel1 == reel2 && reel2 == reel3 then
    if reel1 == "banana" then (true, bet * 50)
    else (true, bet * Config.slot_win_multiplier)
  else (false, 0)

/-- GameEngine.play_dice of `games.py`, as (win, payout); dice_roll is the
value of random.randint(1, 6). -/
def play_dice (bet : ℚ) (user_number dice_roll : Nat) : Bool × ℚ :=
  if user_number == dice_roll then (true, bet * Config.dice_multiplier)
  else (false, 0)

/-- GameEngine.play_jackpot of `games.py`, as (win, payout). -/
def play_jackpot (bet : ℚ) (r : ℚ) : Bool × ℚ :=
  if r < Config.jackpot_win_chance then (true, bet * Config.jackpot_multiplier)
  else (false, 0)

/-- Outcome reported by handle_click of `bot.py`. -/
inductive ClickResult where
  | noUser
  | cooldown
  | clicked
deriving DecidableEq

/-- handle_click of `bot.py`: cooldown check, click reward with its
transaction, then the referral income credit (issued even when the referrer
row is absent, as in the source).  The referrer id is read from the user row
fetched before the updates.  A stored last_click of 0 is falsy in Python, so
it does not trigger the cooldown check. -/
def handle_click (s : Store) (uid : Nat) (now : Nat) : Store × ClickResult :=
  match get_user s uid with
  | none => (s, .noUser)
  | some user =>
    let onCooldown : Bool :=
      match user.last_click with
      | none => false
      | some t => t != 0 && now - t < Config.CLICK_COOLDOWN
    if onCooldown then (s, .cooldown)
    else
      let reward := Config.CLICK_REWARD
      let s1 := (update_balance s uid reward).1
      let s2 := (update_last_click s1 uid now).1
      let s3 := (add_transaction s2 uid reward "click" "clicker").1
      let s4 :=
        match user.referrer_id with
        | some rid =>
          let referral_bonus := reward * (Config.CLICK_REFERRAL_PERCENT / 100)
          let t1 := (update_balance s3 rid referral_bonus).1
          (add_transaction t1 rid referral_bonus "referral_income"
            "10 percent of referral click").1
        | none => s3
      (s4, .clicked)

/-- Outcome reported by handle_bet_input of `bot.py`. -/
inductive BetResult where
  | noUser
  | belowMin
  | insufficient
  | notFlip
  | played (win : Bool)
deriving DecidableEq

/-- handle_bet_input of `bot.py` (the typed-bet flow of Monkey Flip): minimum
bet check, balance check, then one flip round settled through the ledger.
When the stored game_type is not flip, nothing happens after the checks. -/
def handle_bet_input (s : Store) (uid : Nat) (bet : ℚ) (game_type choice : String)
    (r_special r_main : ℚ) : Store × BetResult :=
  match get_user s uid with
  | none => (s, .noUser)
  | some user =>
    if bet < Config.MIN_BETS_flip then (s, .belowMin)
    else if user.balance < bet then (s, .insufficient)
    else if game_type == "flip" then
      let result := play_flip bet choice r_special r_main
      let win := result.1
      let amount := result.2
      if win then
        let s1 := (update_balance s uid (amount - bet)).1
        let s2 := (add_transaction s1 uid (amount - bet) "game_win" "Monkey Flip win x2.0").1
        let s3 := (update_game_stats s2 uid bet true).1
        (s3, .played true)
      else
        let s1 := (update_balance s uid (-bet)).1
        let s2 := (add_transaction s1 uid (-bet) "game_lose" "Monkey Flip lose").1
        let s3 := (update_game_stats s2 uid bet false).1
        (s3, .played false)
    else (s, .notFlip)

/-- Outcome reported by the callback game handlers of `bot.py`. -/
inductive GameResult where
  | noUser
  | insufficient
  | played (win : Bool)
deriving DecidableEq

/-- handle_crash_play of `bot.py`: balance check, one crash round settled
through the ledger. -/
def handle_crash_play (s : Store) (uid : Nat) (bet : ℚ) (r1 r2 r3 r4 : ℚ) :
    Store × GameResult :=
  match get_user s uid with
  | none => (s, .noUser)
  | some user =>
    if user.balance < bet then (s, .insufficient)
    else
      let result := play_crash bet r1 r2 r3 r4
      let win := result.1
      let amount := result.2
      if win then
        let s1 := (update_balance s uid (amount - bet)).1
        let s2 := (add_transaction s1 uid (amount - bet) "game_win" "Banana Crash win").1
        let s3 := (update_game_stats s2 uid bet true).1
        (s3, .played true)
      else
        let s1 := (update_balance s uid (-bet)).1
        let s2 := (add_transaction s1 uid (-bet) "game_lose" "Banana Crash lose").1
        let s3 := (update_game_stats s2 uid bet false).1
        (s3, .played false)

/-- handle_slot_play of `bot.py`: balance check, one slot round settled
through the ledger. -/
def handle_slot_play (s : Store) (uid : Nat) (bet : ℚ) (i1 i2 i3 : Nat) :
    Store × GameResult :=
  match get_user s uid with
  | none => (s, .noUser)
  | some user =>
    if user.balance < bet then (s, .insufficient)
    else
      let result := play_slot bet i1 i2 i3
      let win := result.1
      let amount := result.2
      if win then
        let s1 := (update_balance s uid (amount - bet)).1
        let s2 := (add_transaction s1 uid (amount - bet) "game_win" "Slots win").1
        let s3 := (update_game_stats s2 uid bet true).1
        (s3, .played true)
      else
        let s1 := (update_balance s uid (-bet)).1
        let s2 := (add_transaction s1 uid (-bet) "game_lose" "Slots lose").1
        let s3 := (update_game_stats s2 uid bet false).1
        (s3, .played false)

/-- Outcome reported by handle_dice_bet of `bot.py`. -/
inductive DiceResult where
  | noUser
  | belowMin
  | insufficient
  | played (win : Bool)
deriving DecidableEq

/-- handle_dice_bet of `bot.py`: minimum bet check, balance check, one dice
round settled through the ledger. -/
def handle_dice_bet (s : Store) (uid : Nat) (bet : ℚ) (user_number dice_roll : Nat) :
    Store × DiceResult :=
  match get_user s uid with
  | none => (s, .noUser)
  | some user =>
    if bet < Config.MIN_BETS_dice then (s, .belowMin)
    else if user.balance < bet then (s, .insufficient)
    else
      let result := play_dice bet user_number dice_roll
      let win := result.1
      let amount := result.2
      if win then
        let s1 := (update_balance s uid (amount - bet)).1
        let s2 := (add_transaction s1 uid (amount - bet) "game_win" "Dice win x3.0").1
        let s3 := (update_game_stats s2 uid bet true).1
        (s3, .played true)
      else
        let s1 := (update_balance s uid (-bet)).1
        let s2 := (add_transaction s1 uid (-bet) "game_lose" "Dice lose").1
        let s3 := (update_game_stats s2 uid bet false).1
        (s3, .played false)

/-- Outcome reported by handle_jackpot_play of `bot.py`: the reported flag is
the branch taken by the result text, i.e. whether any ticket won. -/
inductive JackpotResult where
  | noUser
  | insufficient
  | played (reportedWin : Bool) (win_tickets : Nat) (total_win : ℚ)
deriving DecidableEq

/-- The ticket loop of handle_jackpot_play: accumulate (total_win,
win_tickets) over one play_jackpot round per ticket; ticket i consumes
draw i of the stream. -/
def jackpot_rounds (tickets : Nat) (rand : Nat → ℚ) : ℚ × Nat :=
  (List.range tickets).foldl
    (fun acc i =>
      let r := play_jackpot 1 (rand i)
      if r.1 then (acc.1 + r.2, acc.2 + 1) else acc)
    (0, 0)

/-- Number of winning tickets among the first n draws of the stream: the
tickets whose Bernoulli draw falls below the configured win chance. -/
def winCount (n : Nat) (rand : Nat → ℚ) : Nat :=
  ((List.range n).filter (fun i => decide (rand i < Config.jackpot_win_chance))).length

/-- handle_jackpot_play of `bot.py`: balance check, debit for the tickets with
its transaction and a lost-game stats update, play every ticket, then credit
any winnings with their transaction and a won-game stats update. -/
def handle_jackpot_play (s : Store) (uid : Nat) (bet : ℚ) (rand : Nat → ℚ) :
    Store × JackpotResult :=
  match get_user s uid with
  | none => (s, .noUser)
  | some user =>
    let tickets := bet.floor.toNat
    if user.balance < bet then (s, .insufficient)
    else
      let s1 := (update_balance s uid (-bet)).1
      let s2 := (add_transaction s1 uid (-bet) "game_lose" "jackpot ticket purchase").1
      let s3 := (update_game_stats s2 uid bet false).1
      let draws := jackpot_rounds tickets rand
      let total_win := draws.1
      let win_tickets := draws.2
      let s4 :=
        if 0 < total_win then
          let t1 := (update_balance s3 uid total_win).1
          let t2 := (add_transaction t1 uid total_win "game_win" "jackpot win").1
          (update_game_stats t2 uid 0 true).1
        else s3
      (s4, .played (decide (0 < win_tickets)) win_tickets total_win)

/-- Outcome reported by handle_withdraw of `bot.py`. -/
inductive WithdrawResult where
  | noUser
  | insufficient
  | needReferrals (active : Nat)
  | storeError
  | ok (wid : Nat)
deriving DecidableEq

/-- handle_withdraw of `bot.py`: balance check, active-referral check, create
the pending withdrawal row, then debit the balance and record the withdrawal
transaction.  No check against Config.WITHDRAWAL_AMOUNTS appears in the
source. -/
def handle_withdraw (s : Store) (uid : Nat) (amount : ℚ) : Store × WithdrawResult :=
  match get_user s uid with
  | none => (s, .noUser)
  | some user =>
    if user.balance < amount then (s, .insufficient)
    else
      let active_ref := (get_user_referrals s uid).2
      if active_ref < 3 then (s, .needReferrals active_ref)
      else
        let cw := create_withdrawal s uid amount
        match cw.2 with
        | some w =>
          let s2 := (update_balance cw.1 uid (-amount)).1
          let s3 := (add_transaction s2 uid (-amount) "withdrawal" "payout request").1
          (s3, .ok w.id)
        | none => (cw.1, .storeError)

/-- handle_withdraw with fallible store mutations: each of the three mutating
calls (withdrawal insert, balance update, transaction insert) succeeds when
its flag is true and otherwise fails, modelling a supabase call that raises or
returns no rows; the except blocks of `database.py` turn such a failure into
None / False and leave the store unchanged.  As in the source, the results of
update_balance and add_transaction are ignored and success is reported. -/
def handle_withdraw_fallible (s : Store) (uid : Nat) (amount : ℚ)
    (ok_row ok_bal ok_txn : Bool) : Store × WithdrawResult :=
  match get_user s uid with
  | none => (s, .noUser)
  | some user =>
    if user.balance < amount then (s, .insufficient)
    else
      let active_ref := (get_user_referrals s uid).2
      if active_ref < 3 then (s, .needReferrals active_ref)
      else
        let cw := if ok_row then create_withdrawal s uid amount else (s, none)
        match cw.2 with
        | some w =>
          let s2 := (if ok_bal then update_balance cw.1 uid (-amount) else (cw.1, false)).1
          let s3 := (if ok_txn then add_transaction s2 uid (-amount) "withdrawal" "payout request"
                     else (s2, false)).1
          (s3, .ok w.id)
        | none => (cw.1, .storeError)

/-- handle_check_subscriptions of `bot.py`: mark the user subscribed to every
sponsor. -/
def handle_check_subscriptions (s : Store) (uid : Nat) : Store :=
  s.sponsors.foldl (fun acc sid => (update_user_sponsor_status acc uid sid true).1) s

/-- The amounts offered by the withdraw menu keyboard of `bot.py`
(handle_withdraw_menu iterates over Config.WITHDRAWAL_AMOUNTS). -/
def withdraw_menu_amounts : List ℚ := Config.WITHDRAWAL_AMOUNTS

/-- One balance-affecting request, as dispatched by the front-end.  Random
draws are carried by the operation; the dice roll parameter is reduced into
the range of random.randint(1, 6) by the step function. -/
inductive Op where
  | create (uid : Nat) (username : String) (referrer_id : Option Nat)
  | click (uid : Nat) (now : Nat)
  | flipRound (uid : Nat) (bet : ℚ) (choice : String) (r_special r_main : ℚ)
  | crashRound (uid : Nat) (bet : ℚ) (r1 r2 r3 r4 : ℚ)
  | slotRound (uid : Nat) (bet : ℚ) (i1 i2 i3 : Nat)
  | diceRound (uid : Nat) (bet : ℚ) (user_number roll : Nat)
  | jackpotRound (uid : Nat) (bet : ℚ) (rand : Nat → ℚ)
  | withdrawOp (uid : Nat) (amount : ℚ)
  | sponsorAdd
  | checkSubs (uid : Nat)

/-- Effect of one operation on the store. -/
def step (s : Store) : Op → Store
  | .create uid name ref => (create_user s uid name ref).1
  | .click uid now => (handle_click s uid now).1
  | .flipRound uid bet choice r1 r2 => (handle_bet_input s uid bet "flip" choice r1 r2).1
  | .crashRound uid bet r1 r2 r3 r4 => (handle_crash_play s uid bet r1 r2 r3 r4).1
  | .slotRound uid bet i1 i2 i3 => (handle_slot_play s uid bet i1 i2 i3).1
  | .diceRound uid bet n roll => (handle_dice_bet s uid bet n (1 + roll % 6)).1
  | .jackpotRound uid bet rand => (handle_jackpot_play s uid bet rand).1
  | .withdrawOp uid amount => (handle_withdraw s uid amount).1
  | .sponsorAdd => (add_sponsor s).1
  | .checkSubs uid => handle_check_subscriptions s uid

/-- The empty store the bot starts from. -/
def initStore : Store :=
  { users := [], transactions := [], withdrawals := [], sponsors := [],
    user_sponsors := [], clock := 0 }

/-- Run a sequence of operations from the empty store. -/
def run (ops : List Op) : Store := ops.foldl step initStore

/-- Sum of the signed amounts of all transactions recorded for an account. -/
def txnSumAll (txns : List Txn) (uid : Nat) : ℚ :=
  ((txns.filter (fun t => t.user_id == uid)).map Txn.amount).sum

/-- Sum of the signed amounts of the transactions recorded for an account
at or after a given time. -/
def txnSumSince (txns : List Txn) (uid : Nat) (since : Nat) : ℚ :=
  ((txns.filter (fun t => t.user_id == uid && decide (since ≤ t.created_at))).map
    Txn.amount).sum

/-- Conservation: every stored balance equals the sum of the transactions
recorded for that account since the creation time stored in its row. -/
def Conservation (s : Store) : Prop :=
  ∀ u ∈ s.users, u.balance = txnSumSince s.transactions u.user_id u.created_at

/-- Store well-formedness: user ids are unique, and every stored timestamp
lies strictly below the clock. -/
def WF (s : Store) : Prop :=
  ((s.users.map (fun u => u.user_id)).Nodup) ∧
  (∀ u ∈ s.users, u.created_at < s.clock) ∧
  (∀ t ∈ s.transactions, t.created_at < s.clock)

/-- Between two stores: every account lookup still succeeds and keeps its
referrer field. -/
def RefPres (s t : Store) : Prop :=
  ∀ uid u, get_user s uid = some u →
    ∃ u', get_user t uid = some u' ∧ u'.referrer_id = u.referrer_id

/-- Whether an operation is an account-creation call for the given id. -/
def Op.isCreateOf : Op → Nat → Bool
  | .create v _ _, uid => v == uid
  | _, _ => false

/-- Concrete account used by the witnesses: id 10 with a balance of 20. -/
def egUser : User :=
  { user_id := 10, username := "u", referrer_id := none, created_at := 0,
    balance := 20, last_click := none, total_wagered := 0, games_played := 0,
    games_won := 0 }

/-- Concrete referral account of egUser. -/
def egRef (n : Nat) : User :=
  { user_id := n, username := "r", referrer_id := some 10, created_at := 0,
    balance := 0, last_click := none, total_wagered := 0, games_played := 0,
    games_won := 0 }

/-- Concrete store used by the witnesses: account 10 with balance 20 and
three referrals, each subscribed to the single sponsor. -/
def egStore : Store :=
  { users := [egUser, egRef 11, egRef 12, egRef 13],
    transactions := [], withdrawals := [], sponsors := [0],
    user_sponsors :=
      [{ user_id := 11, sponsor_id := 0, is_subscribed := true, last_check := 0 },
       { user_id := 12, sponsor_id := 0, is_subscribed := true, last_check := 0 },
       { user_id := 13, sponsor_id := 0, is_subscribed := true, last_check := 0 }],
    clock := 1 }

/-- Concrete store holding only egUser, with no transactions yet. -/
def soloStore : Store :=
  { users := [egUser], transactions := [], withdrawals := [], sponsors := [],
    user_sponsors := [], clock := 1 }

/-- Concrete account with a balance of 1/5, below every minimum bet. -/
def lowUser : User :=
  { user_id := 7, username := "w", referrer_id := none, created_at := 0,
    balance := mkRat 1 5, last_click := none, total_wagered := 0, games_played := 0,
    games_won := 0 }

/-- Concrete store holding only lowUser. -/
def lowStore : Store :=
  { users := [lowUser], transactions := [], withdrawals := [], sponsors := [],
    user_sponsors := [], clock := 1 }

lemma txnSumAll_append (l₁ l₂ : List Txn) (uid : Nat) :
    txnSumAll (l₁ ++ l₂) uid = txnSumAll l₁ uid + txnSumAll l₂ uid := by
  simp [txnSumAll, List.filter_append]

lemma txnSumSince_append (l₁ l₂ : List Txn) (uid : Nat) (since : Nat) :
    txnSumSince (l₁ ++ l₂) uid since =
      txnSumSince l₁ uid since + txnSumSince l₂ uid since := by
  simp [txnSumSince, List.filter_append]

lemma txnSumSince_eq_all (L : List Txn) (uid : Nat) (since : Nat)
    (h : ∀ x ∈ L, since ≤ x.created_at) :
    txnSumSince L uid since = txnSumAll L uid := by
  induction L with
  | nil => rfl
  | cons a t ih =>
    have ha : since ≤ a.created_at := h a (List.mem_cons_self a t)
    have ht : ∀ x ∈ t, since ≤ x.created_at := fun x hx => h x (List.mem_cons_of_mem a hx)
    by_cases hu : a.user_id == uid
    · simp [txnSumSince, txnSumAll, List.filter_cons, hu, ha] at ih ⊢
      simpa [txnSumSince, txnSumAll] using ih ht
    · simp [txnSumSince, txnSumAll, List.filter_cons, hu] at ih ⊢
      simpa [txnSumSince, txnSumAll] using ih ht

lemma txnSumSince_eq_zero (L : List Txn) (uid : Nat) (since : Nat)
    (h : ∀ x ∈ L, x.created_at < since) :
    txnSumSince L uid since = 0 := by
  induction L with
  | nil => rfl
  | cons a t ih =>
    have ha : ¬ since ≤ a.created_at := by
      have := h a (List.mem_cons_self a t)
      omega
    have ht : ∀ x ∈ t, x.created_at < since := fun x hx => h x (List.mem_cons_of_mem a hx)
    simp [txnSumSince, List.filter_cons, ha] at ih ⊢
    simpa [txnSumSince] using ih ht

lemma txnSumAll_single (t : Txn) (uid : Nat) :
    txnSumAll [t] uid = if t.user_id = uid then t.amount else 0 := by
  by_cases h : t.user_id = uid <;> simp [txnSumAll, List.filter_cons, h]

lemma find?_map_id_pres (l : List User) (F : User → User)
    (hF : ∀ v, (F v).user_id = v.user_id) (uid : Nat) :
    (l.map F).find? (fun u => u.user_id == uid) =
      (l.find? (fun u => u.user_id == uid)).map F := by
  induction l with
  | nil => rfl
  | cons a t ih =>
    rw [List.map_cons, List.find?_cons, List.find?_cons]
    simp only [hF a]
    cases h : (a.user_id == uid)
    · exact ih
    · rfl

lemma find?_append_some {l₁ l₂ : List User} {p : User → Bool} {x : User}
    (h : l₁.find? p = some x) : (l₁ ++ l₂).find? p = some x := by
  rw [List.find?_append, h]; rfl

lemma find?_append_none {l₁ l₂ : List User} {p : User → Bool}
    (h : l₁.find? p = none) : (l₁ ++ l₂).find? p = l₂.find? p := by
  rw [List.find?_append, h]; rfl

/-- With unique ids, looking up the id of a member returns that member. -/
lemma get_user_eq_self {s : Store} (hnd : (s.users.map (fun u => u.user_id)).Nodup)
    {v : User} (hv : v ∈ s.users) : get_user s v.user_id = some v := by
  unfold get_user
  revert hnd hv
  generalize s.users = l
  induction l with
  | nil => intro _ hv; cases hv
  | cons a t ih =>
    intro hnd hv
    have hnd' : a.user_id ∉ t.map (fun u => u.user_id) ∧
        (t.map (fun u => u.user_id)).Nodup := by
      rw [List.map_cons] at hnd
      exact List.nodup_cons.mp hnd
    rcases List.mem_cons.mp hv with h | h
    · subst h
      rw [List.find?_cons]
      simp
    · have hne : (a.user_id == v.user_id) = false := by
        by_contra hc
        have hc' : a.user_id = v.user_id := by
          simpa using Bool.not_eq_false _ |>.mp hc
        exact hnd'.1 (List.mem_map.mpr ⟨v, h, hc'.symm⟩)
      rw [List.find?_cons, hne]
      exact ih hnd'.2 h

/-- Shape lemma: an operation that patches user rows pointwise (preserving
ids), possibly appends fresh rows stamped at the current time, and appends
transactions stamped between the old and the new clock, preserves
well-formedness and conservation, provided each patched or fresh balance
absorbs exactly the new transactions of its account. -/
lemma conservation_shape (s t : Store) (F : User → User) (A : List User) (L : List Txn)
    (hus : t.users = s.users.map F ++ A)
    (htx : t.transactions = s.transactions ++ L)
    (hclk : s.clock < t.clock)
    (hFid : ∀ v, (F v).user_id = v.user_id)
    (hFu : ∀ v ∈ s.users,
        ((F v).created_at = v.created_at ∧ (F v).balance = v.balance + txnSumAll L v.user_id)
      ∨ ((F v).created_at = s.clock ∧ (F v).balance = txnSumAll L v.user_id))
    (hA : ∀ a ∈ A, a.created_at = s.clock ∧ a.balance = txnSumAll L a.user_id ∧
          ∀ v ∈ s.users, a.user_id ≠ v.user_id)
    (hAnd : (A.map (fun a => a.user_id)).Nodup)
    (hL : ∀ x ∈ L, s.clock ≤ x.created_at ∧ x.created_at < t.clock)
    (hWF : WF s) (hC : Conservation s) :
    WF t ∧ Conservation t := by
  obtain ⟨hnd, huc, htc⟩ := hWF
  have hids : (s.users.map F).map (fun u => u.user_id) = s.users.map (fun u => u.user_id) := by
    rw [List.map_map]
    exact List.map_congr_left (fun v _ => hFid v)
  refine ⟨⟨?_, ?_, ?_⟩, ?_⟩
  · rw [hus, List.map_append, hids]
    refine List.Nodup.append hnd hAnd ?_
    intro x hx hxa
    obtain ⟨v, hv, hvx⟩ := List.mem_map.mp hx
    obtain ⟨a, ha, hax⟩ := List.mem_map.mp hxa
    exact (hA a ha).2.2 v hv (hax.trans hvx.symm)
  · intro u hu
    rw [hus] at hu
    rcases List.mem_append.mp hu with h | h
    · obtain ⟨v, hv, hvu⟩ := List.mem_map.mp h
      rcases hFu v hv with ⟨hca, _⟩ | ⟨hca, _⟩
      · rw [← hvu, hca]
        exact lt_trans (huc v hv) hclk
      · rw [← hvu, hca]
        exact hclk
    · rw [(hA u h).1]
      exact hclk
  · intro x hx
    rw [htx] at hx
    rcases List.mem_append.mp hx with h | h
    · exact lt_trans (htc x h) hclk
    · exact (hL x h).2
  · intro u hu
    rw [hus] at hu
    rw [htx, txnSumSince_append]
    rcases List.mem_append.mp hu with h | h
    · obtain ⟨v, hv, hvu⟩ := List.mem_map.mp h
      rcases hFu v hv with ⟨hca, hbal⟩ | ⟨hca, hbal⟩
      · rw [← hvu, hca, hFid, hbal, ← hC v hv]
        have : txnSumSince L v.user_id v.created_at = txnSumAll L v.user_id :=
          txnSumSince_eq_all L v.user_id v.created_at
            (fun x hx => le_trans (le_of_lt (huc v hv)) (hL x hx).1)
        rw [this]
      · rw [← hvu, hca, hFid, hbal,
          txnSumSince_eq_zero s.transactions v.user_id s.clock (fun x hx => htc x hx),
          txnSumSince_eq_all L v.user_id s.clock (fun x hx => (hL x hx).1)]
        ring
    · obtain ⟨hca, hbal, _⟩ := hA u h
      rw [hca, hbal,
        txnSumSince_eq_zero s.transactions u.user_id s.clock (fun x hx => htc x hx),
        txnSumSince_eq_all L u.user_id s.clock (fun x hx => (hL x hx).1)]
      ring

lemma get_user_none_mem {s : Store} {uid : Nat} (h : get_user s uid = none)
    {v : User} (hv : v ∈ s.users) : v.user_id ≠ uid := by
  intro he
  have := List.find?_eq_none.mp h v hv
  simp [he] at this

lemma get_user_mem {s : Store} {uid : Nat} {u : User} (h : get_user s uid = some u) :
    u ∈ s.users :=
  List.mem_of_find?_eq_some h

lemma get_user_id {s : Store} {uid : Nat} {u : User} (h : get_user s uid = some u) :
    u.user_id = uid := by
  have := List.find?_some h
  simpa using this

lemma get_user_some_mem_eq {s : Store} {uid : Nat} {u : User}
    (hnd : (s.users.map (fun x => x.user_id)).Nodup)
    (h : get_user s uid = some u) {v : User} (hv : v ∈ s.users) (hid : v.user_id = uid) :
    v = u := by
  have h2 := get_user_eq_self hnd hv
  rw [hid] at h2
  exact Option.some_inj.mp (h2.symm.trans h)

lemma any_id_true_of_get_user {s : Store} {uid : Nat} {u : User}
    (h : get_user s uid = some u) : s.users.any (fun v => v.user_id == uid) = true :=
  List.any_eq_true.mpr ⟨u, get_user_mem h, by simp [get_user_id h]⟩

/-- A store with the same users and transactions and a clock at least as
large preserves well-formedness and conservation. -/
lemma preserves_of_untouched (s t : Store) (hu : t.users = s.users)
    (ht : t.transactions = s.transactions) (hc : s.clock ≤ t.clock)
    (hWF : WF s) (hC : Conservation s) : WF t ∧ Conservation t := by
  obtain ⟨hnd, huc, htc⟩ := hWF
  refine ⟨⟨?_, ?_, ?_⟩, ?_⟩
  · rw [hu]; exact hnd
  · intro v hv; rw [hu] at hv; exact lt_of_lt_of_le (huc v hv) hc
  · intro x hx; rw [ht] at hx; exact lt_of_lt_of_le (htc x hx) hc
  · intro v hv
    rw [hu] at hv
    rw [ht]
    exact hC v hv

/-- A matched-amount ledger credit (update_balance followed by
add_transaction with the same amount) preserves the invariants, whether or
not the account row exists (an absent row yields a transaction that belongs
to no account). -/
lemma credit_preserves (s : Store) (uid : Nat) (amt : ℚ) (ty d : String)
    (hWF : WF s) (hC : Conservation s) :
    WF (add_transaction (update_balance s uid amt).1 uid amt ty d).1 ∧
      Conservation (add_transaction (update_balance s uid amt).1 uid amt ty d).1 := by
  cases hu : get_user s uid with
  | none =>
    simp only [update_balance, hu, add_transaction]
    refine conservation_shape s _ (fun v => v) []
      [{ user_id := uid, amount := amt, type := ty, description := d, created_at := s.clock }]
      (by simp) rfl (by simp) (fun v => rfl) ?_ (by simp) (by simp) ?_ hWF hC
    · intro v hv
      left
      refine ⟨rfl, ?_⟩
      rw [txnSumAll_single]
      simp [Ne.symm (get_user_none_mem hu hv)]
    · intro x hx
      simp at hx
      subst hx
      simp
  | some u =>
    simp only [update_balance, hu, add_transaction]
    refine conservation_shape s _
      (fun v => if v.user_id == uid then { v with balance := u.balance + amt } else v) []
      [{ user_id := uid, amount := amt, type := ty, description := d,
         created_at := s.clock + 1 }]
      (by simp) rfl (by show s.clock < s.clock + 1 + 1; omega) ?_ ?_ (by simp) (by simp)
      ?_ hWF hC
    · intro v
      by_cases h : v.user_id = uid <;> simp [h]
    · intro v hv
      left
      by_cases h : v.user_id = uid
      · have hvu : v = u := get_user_some_mem_eq hWF.1 hu hv h
        subst hvu
        refine ⟨by simp [h], ?_⟩
        rw [txnSumAll_single]
        simp [h]
      · refine ⟨by simp [h], ?_⟩
        rw [txnSumAll_single]
        simp [h, Ne.symm h]
    · intro x hx
      simp at hx
      subst hx
      refine ⟨by show s.clock ≤ s.clock + 1; omega,
        by show s.clock + 1 < s.clock + 1 + 1; omega⟩

/-- A game-statistics update touches no balance and no transaction, so it
preserves the invariants. -/
lemma stats_preserves (s : Store) (uid : Nat) (w : ℚ) (b : Bool)
    (hWF : WF s) (hC : Conservation s) :
    WF (update_game_stats s uid w b).1 ∧ Conservation (update_game_stats s uid w b).1 := by
  cases hu : get_user s uid with
  | none =>
    simp only [update_game_stats, hu]
    exact ⟨hWF, hC⟩
  | some u =>
    simp only [update_game_stats, hu]
    refine conservation_shape s _
      (fun v => if v.user_id == uid then
        { v with total_wagered := u.total_wagered + w,
                 games_played := u.games_played + 1,
                 games_won := if b then u.games_won + 1 else u.games_won } else v)
      [] []
      (by simp) (by simp) (by show s.clock < s.clock + 1; omega) ?_ ?_ (by simp) (by simp)
      (by simp) hWF hC
    · intro v
      by_cases h : v.user_id = uid <;> simp [h]
    · intro v hv
      left
      by_cases h : v.user_id = uid <;> simp [h, txnSumAll]

/-- A full game settlement (balance delta, its transaction, statistics
update) preserves the invariants. -/
lemma settle_preserves (s : Store) (uid : Nat) (amt w : ℚ) (b : Bool) (ty d : String)
    (hWF : WF s) (hC : Conservation s) :
    WF (update_game_stats (add_transaction (update_balance s uid amt).1 uid amt ty d).1
          uid w b).1 ∧
      Conservation (update_game_stats
          (add_transaction (update_balance s uid amt).1 uid amt ty d).1 uid w b).1 := by
  obtain ⟨h1, h2⟩ := credit_preserves s uid amt ty d hWF hC
  exact stats_preserves _ uid w b h1 h2

/-- The click-reward core (balance update, last_click update, click
transaction) preserves the invariants. -/
lemma click_core_preserves (s : Store) (uid now : Nat) (r : ℚ) (ty d : String)
    (u : User) (hu : get_user s uid = some u)
    (hWF : WF s) (hC : Conservation s) :
    WF (add_transaction (update_last_click (update_balance s uid r).1 uid now).1
          uid r ty d).1 ∧
      Conservation (add_transaction
          (update_last_click (update_balance s uid r).1 uid now).1 uid r ty d).1 := by
  have hid := get_user_id hu
  have hmem := get_user_mem hu
  have e1 : (update_balance s uid r).1 =
      { s with
          users := s.users.map (fun v =>
            if v.user_id == uid then { v with balance := u.balance + r } else v),
          clock := s.clock + 1 } := by
    simp [update_balance, hu]
  have hany : ((s.users.map (fun v =>
      if v.user_id == uid then { v with balance := u.balance + r } else v)).any
        (fun v => v.user_id == uid)) = true := by
    refine List.any_eq_true.mpr ⟨_, List.mem_map.mpr ⟨u, hmem, rfl⟩, ?_⟩
    simp [hid]
  rw [e1]
  have e2 : (update_last_click
      { s with
          users := s.users.map (fun v =>
            if v.user_id == uid then { v with balance := u.balance + r } else v),
          clock := s.clock + 1 } uid now).1 =
      { s with
          users := (s.users.map (fun v =>
            if v.user_id == uid then { v with balance := u.balance + r } else v)).map
              (fun v => if v.user_id == uid then { v with last_click := some now } else v),
          clock := s.clock + 2 } := by
    unfold update_last_click
    rw [if_pos hany]
  rw [e2]
  simp only [add_transaction]
  refine conservation_shape s _
    (fun v => if v.user_id == uid then
        { v with balance := u.balance + r, last_click := some now } else v)
    []
    [{ user_id := uid, amount := r, type := ty, description := d, created_at := s.clock + 2 }]
    ?_ rfl (by show s.clock < s.clock + 2 + 1; omega) ?_ ?_ (by simp) (by simp) ?_ hWF hC
  · show _ = _ ++ ([] : List User)
    rw [List.append_nil, List.map_map]
    refine (List.map_congr_left ?_)
    intro v _
    by_cases h : v.user_id = uid <;> simp [h]
  · intro v
    by_cases h : v.user_id = uid <;> simp [h]
  · intro v hv
    left
    by_cases h : v.user_id = uid
    · have hvu : v = u := get_user_some_mem_eq hWF.1 hu hv h
      subst hvu
      refine ⟨by simp [h], ?_⟩
      rw [txnSumAll_single]
      simp [h]
    · refine ⟨by simp [h], ?_⟩
      rw [txnSumAll_single]
      simp [h, Ne.symm h]
  · intro x hx
    simp at hx
    subst hx
    refine ⟨by show s.clock ≤ s.clock + 2; omega,
      by show s.clock + 2 < s.clock + 2 + 1; omega⟩

/-- Upserting a user row whose creation time is the current clock and whose
balance is zero preserves the invariants, whether the row replaces an
existing one or is appended. -/
lemma upsert_row_preserves (s : Store) (nu : User)
    (hca : nu.created_at = s.clock) (hb : nu.balance = 0)
    (hWF : WF s) (hC : Conservation s) :
    WF { s with users := upsertUser s.users nu, clock := s.clock + 1 } ∧
      Conservation { s with users := upsertUser s.users nu, clock := s.clock + 1 } := by
  unfold upsertUser
  by_cases h : s.users.any (fun v => v.user_id == nu.user_id) = true
  · rw [if_pos h]
    refine conservation_shape s _
      (fun v => if v.user_id == nu.user_id then nu else v) [] []
      (by simp) (by simp) (by show s.clock < s.clock + 1; omega) ?_ ?_ (by simp) (by simp)
      (by simp) hWF hC
    · intro v
      by_cases hv : v.user_id = nu.user_id <;> simp [hv]
    · intro v hv
      by_cases hvid : v.user_id = nu.user_id
      · right
        simp [hvid, hca, hb, txnSumAll]
      · left
        simp [hvid, txnSumAll]
  · rw [if_neg h]
    refine conservation_shape s _ (fun v => v) [nu] []
      (by simp) (by simp) (by show s.clock < s.clock + 1; omega) (fun v => rfl) ?_ ?_
      (by simp) (by simp) hWF hC
    · intro v hv
      left
      simp [txnSumAll]
    · intro a ha
      simp at ha
      subst ha
      refine ⟨hca, by simp [hb, txnSumAll], ?_⟩
      intro v hv he
      have := List.any_eq_false.mp (Bool.not_eq_true _ |>.mp h) v hv
      simp [he] at this

/-- Updating a sponsor-subscription row preserves the invariants. -/
lemma subs_status_preserves (s : Store) (uid sid : Nat) (b : Bool)
    (hWF : WF s) (hC : Conservation s) :
    WF (update_user_sponsor_status s uid sid b).1 ∧
      Conservation (update_user_sponsor_status s uid sid b).1 := by
  unfold update_user_sponsor_status
  by_cases h : s.user_sponsors.any (fun r => r.user_id == uid && r.sponsor_id == sid) = true
  · rw [if_pos h]
    exact preserves_of_untouched s _ rfl rfl (Nat.le_succ s.clock) hWF hC
  · rw [if_neg h]
    exact preserves_of_untouched s _ rfl rfl (Nat.le_succ s.clock) hWF hC

lemma check_subs_preserves_aux (l : List Nat) (uid : Nat) (s : Store)
    (hWF : WF s) (hC : Conservation s) :
    WF (l.foldl (fun acc sid => (update_user_sponsor_status acc uid sid true).1) s) ∧
      Conservation
        (l.foldl (fun acc sid => (update_user_sponsor_status acc uid sid true).1) s) := by
  induction l generalizing s with
  | nil => exact ⟨hWF, hC⟩
  | cons a t ih =>
    simp only [List.foldl_cons]
    obtain ⟨h1, h2⟩ := subs_status_preserves s uid a true hWF hC
    exact ih _ h1 h2

lemma create_user_preserves (s : Store) (uid : Nat) (name : String) (ref : Option Nat)
    (hWF : WF s) (hC : Conservation s) :
    WF (create_user s uid name ref).1 ∧ Conservation (create_user s uid name ref).1 := by
  unfold create_user
  cases ref with
  | none => exact upsert_row_preserves s _ rfl (by norm_num) hWF hC
  | some rid =>
    obtain ⟨w1, c1⟩ := upsert_row_preserves s
      { user_id := uid,
        username := if name == "" then "user_" ++ toString uid else name,
        referrer_id := some rid, created_at := s.clock, balance := 0,
        last_click := none, total_wagered := 0, games_played := 0, games_won := 0 }
      rfl (by norm_num) hWF hC
    dsimp only
    split
    · obtain ⟨w2, c2⟩ := credit_preserves _ rid Config.REFERRAL_REWARD_REFERRER
        "referral_bonus" "invite bonus" w1 c1
      exact credit_preserves _ uid Config.REFERRAL_REWARD_REFEREE
        "referral_bonus" "signup via referral link" w2 c2
    · exact ⟨w1, c1⟩

lemma handle_click_preserves (s : Store) (uid now : Nat)
    (hWF : WF s) (hC : Conservation s) :
    WF (handle_click s uid now).1 ∧ Conservation (handle_click s uid now).1 := by
  unfold handle_click
  cases hu : get_user s uid with
  | none => exact ⟨hWF, hC⟩
  | some user =>
    dsimp only
    split_ifs with hcd
    · exact ⟨hWF, hC⟩
    · cases href : user.referrer_id with
      | none =>
        exact click_core_preserves s uid now Config.CLICK_REWARD "click" "clicker" user
          hu hWF hC
      | some rid =>
        obtain ⟨w1, c1⟩ := click_core_preserves s uid now Config.CLICK_REWARD
          "click" "clicker" user hu hWF hC
        exact credit_preserves _ rid
          (Config.CLICK_REWARD * (Config.CLICK_REFERRAL_PERCENT / 100))
          "referral_income" "10 percent of referral click" w1 c1

lemma handle_bet_input_preserves (s : Store) (uid : Nat) (bet : ℚ) (gt choice : String)
    (r1 r2 : ℚ) (hWF : WF s) (hC : Conservation s) :
    WF (handle_bet_input s uid bet gt choice r1 r2).1 ∧
      Conservation (handle_bet_input s uid bet gt choice r1 r2).1 := by
  unfold handle_bet_input
  cases hu : get_user s uid with
  | none => exact ⟨hWF, hC⟩
  | some user =>
    dsimp only
    split_ifs with h1 h2 h3 h4
    · exact ⟨hWF, hC⟩
    · exact ⟨hWF, hC⟩
    · exact settle_preserves s uid _ bet true "game_win" "Monkey Flip win x2.0" hWF hC
    · exact settle_preserves s uid _ bet false "game_lose" "Monkey Flip lose" hWF hC
    · exact ⟨hWF, hC⟩

lemma handle_crash_play_preserves (s : Store) (uid : Nat) (bet : ℚ) (r1 r2 r3 r4 : ℚ)
    (hWF : WF s) (hC : Conservation s) :
    WF (handle_crash_play s uid bet r1 r2 r3 r4).1 ∧
      Conservation (handle_crash_play s uid bet r1 r2 r3 r4).1 := by
  unfold handle_crash_play
  cases hu : get_user s uid with
  | none => exact ⟨hWF, hC⟩
  | some user =>
    dsimp only
    split_ifs with h1 h2
    · exact ⟨hWF, hC⟩
    · exact settle_preserves s uid _ bet true "game_win" "Banana Crash win" hWF hC
    · exact settle_preserves s uid _ bet false "game_lose" "Banana Crash lose" hWF hC

lemma handle_slot_play_preserves (s : Store) (uid : Nat) (bet : ℚ) (i1 i2 i3 : Nat)
    (hWF : WF s) (hC : Conservation s) :
    WF (handle_slot_play s uid bet i1 i2 i3).1 ∧
      Conservation (handle_slot_play s uid bet i1 i2 i3).1 := by
  unfold handle_slot_play
  cases hu : get_user s uid with
  | none => exact ⟨hWF, hC⟩
  | some user =>
    dsimp only
    split_ifs with h1 h2
    · exact ⟨hWF, hC⟩
    · exact settle_preserves s uid _ bet true "game_win" "Slots win" hWF hC
    · exact settle_preserves s uid _ bet false "game_lose" "Slots lose" hWF hC

lemma handle_dice_bet_preserves (s : Store) (uid : Nat) (bet : ℚ) (n roll : Nat)
    (hWF : WF s) (hC : Conservation s) :
    WF (handle_dice_bet s uid bet n roll).1 ∧
      Conservation (handle_dice_bet s uid bet n roll).1 := by
  unfold handle_dice_bet
  cases hu : get_user s uid with
  | none => exact ⟨hWF, hC⟩
  | some user =>
    dsimp only
    split_ifs with h1 h2 h3
    · exact ⟨hWF, hC⟩
    · exact ⟨hWF, hC⟩
    · exact settle_preserves s uid _ bet true "game_win" "Dice win x3.0" hWF hC
    · exact settle_preserves s uid _ bet false "game_lose" "Dice lose" hWF hC

lemma handle_jackpot_play_preserves (s : Store) (uid : Nat) (bet : ℚ) (rand : Nat → ℚ)
    (hWF : WF s) (hC : Conservation s) :
    WF (handle_jackpot_play s uid bet rand).1 ∧
      Conservation (handle_jackpot_play s uid bet rand).1 := by
  unfold handle_jackpot_play
  cases hu : get_user s uid with
  | none => exact ⟨hWF, hC⟩
  | some user =>
    dsimp only
    split_ifs with h1 h2
    · exact ⟨hWF, hC⟩
    · obtain ⟨w1, c1⟩ := settle_preserves s uid (-bet) bet false "game_lose"
        "jackpot ticket purchase" hWF hC
      exact settle_preserves _ uid _ 0 true "game_win" "jackpot win" w1 c1
    · exact settle_preserves s uid (-bet) bet false "game_lose"
        "jackpot ticket purchase" hWF hC

lemma handle_withdraw_preserves (s : Store) (uid : Nat) (amount : ℚ)
    (hWF : WF s) (hC : Conservation s) :
    WF (handle_withdraw s uid amount).1 ∧ Conservation (handle_withdraw s uid amount).1 := by
  unfold handle_withdraw
  cases hu : get_user s uid with
  | none => exact ⟨hWF, hC⟩
  | some user =>
    dsimp only [create_withdrawal]
    split_ifs with h1 h2
    · exact ⟨hWF, hC⟩
    · exact ⟨hWF, hC⟩
    · exact credit_preserves (create_withdrawal s uid amount).1 uid (-amount)
        "withdrawal" "payout request"
        (preserves_of_untouched s (create_withdrawal s uid amount).1 rfl rfl
          (Nat.le_succ s.clock) hWF hC).1
        (preserves_of_untouched s (create_withdrawal s uid amount).1 rfl rfl
          (Nat.le_succ s.clock) hWF hC).2

/-- Every operation preserves well-formedness and conservation. -/
lemma step_preserves (s : Store) (op : Op) (hWF : WF s) (hC : Conservation s) :
    WF (step s op) ∧ Conservation (step s op) := by
  cases op with
  | create uid name ref => exact create_user_preserves s uid name ref hWF hC
  | click uid now => exact handle_click_preserves s uid now hWF hC
  | flipRound uid bet choice r1 r2 =>
    exact handle_bet_input_preserves s uid bet "flip" choice r1 r2 hWF hC
  | crashRound uid bet r1 r2 r3 r4 =>
    exact handle_crash_play_preserves s uid bet r1 r2 r3 r4 hWF hC
  | slotRound uid bet i1 i2 i3 => exact handle_slot_play_preserves s uid bet i1 i2 i3 hWF hC
  | diceRound uid bet n roll => exact handle_dice_bet_preserves s uid bet n (1 + roll % 6) hWF hC
  | jackpotRound uid bet rand => exact handle_jackpot_play_preserves s uid bet rand hWF hC
  | withdrawOp uid amount => exact handle_withdraw_preserves s uid amount hWF hC
  | sponsorAdd => exact preserves_of_untouched s _ rfl rfl (Nat.le_succ s.clock) hWF hC
  | checkSubs uid => exact check_subs_preserves_aux s.sponsors uid s hWF hC

lemma find?_replace_self (l : List User) (nu : User)
    (h : l.any (fun v => v.user_id == nu.user_id) = true) :
    (l.map (fun v => if v.user_id == nu.user_id then nu else v)).find?
      (fun v => v.user_id == nu.user_id) = some nu := by
  induction l with
  | nil => simp at h
  | cons a t ih =>
    rw [List.map_cons, List.find?_cons]
    by_cases ha : (a.user_id == nu.user_id) = true
    · simp [ha]
    · rw [if_neg ha]
      have h' : t.any (fun v => v.user_id == nu.user_id) = true := by
        rcases List.any_eq_true.mp h with ⟨x, hx, hxp⟩
        rcases List.mem_cons.mp hx with rfl | hxt
        · exact absurd hxp ha
        · exact List.any_eq_true.mpr ⟨x, hxt, hxp⟩
      have := ih h'
      simp only [Bool.not_eq_true] at ha
      rw [ha]
      exact this

/-- After an upsert, looking up the id of the upserted row yields that row. -/
lemma find?_upsert_self (l : List User) (nu : User) :
    (upsertUser l nu).find? (fun v => v.user_id == nu.user_id) = some nu := by
  unfold upsertUser
  by_cases h : l.any (fun v => v.user_id == nu.user_id) = true
  · rw [if_pos h]
    exact find?_replace_self l nu h
  · rw [if_neg h]
    have hnone : l.find? (fun v => v.user_id == nu.user_id) = none :=
      List.find?_eq_none.mpr (fun x hx =>
        by simpa using List.any_eq_false.mp (Bool.not_eq_true _ |>.mp h) x hx)
    rw [List.find?_append, hnone]
    simp [List.find?_cons]

/-- An upsert leaves lookups of other ids unchanged. -/
lemma find?_upsert_other (l : List User) (nu : User) (uid : Nat) (hne : uid ≠ nu.user_id) :
    (upsertUser l nu).find? (fun v => v.user_id == uid) =
      l.find? (fun v => v.user_id == uid) := by
  unfold upsertUser
  by_cases h : l.any (fun v => v.user_id == nu.user_id) = true
  · rw [if_pos h]
    clear h
    induction l with
    | nil => rfl
    | cons a t ih =>
      rw [List.map_cons, List.find?_cons, List.find?_cons]
      by_cases ha : (a.user_id == nu.user_id) = true
      · rw [if_pos ha]
        have h1 : (nu.user_id == uid) = false := by
          simp [Ne.symm hne]
        have h2 : (a.user_id == uid) = false := by
          have haeq : a.user_id = nu.user_id := by simpa using ha
          simp [haeq, Ne.symm hne]
        rw [h1, h2]
        exact ih
      · rw [if_neg ha]
        cases hp : (a.user_id == uid)
        · exact ih
        · rfl
  · rw [if_neg h, List.find?_append]
    cases hp : l.find? (fun v => v.user_id == uid)
    · have : (nu.user_id == uid) = false := by simp [Ne.symm hne]
      simp [List.find?_cons, this]
    · rfl

lemma get_user_update_balance_self {s : Store} {uid : Nat} {u : User} (amt : ℚ)
    (hu : get_user s uid = some u) :
    get_user (update_balance s uid amt).1 uid = some { u with balance := u.balance + amt } := by
  have hid := get_user_id hu
  unfold get_user at hu ⊢
  rw [update_balance]
  unfold get_user
  rw [hu]
  show (List.map _ s.users).find? _ = _
  rw [find?_map_id_pres _ _ (fun v => by by_cases h : v.user_id = uid <;> simp [h]) uid, hu]
  simp [hid]

lemma get_user_update_balance_other {s : Store} {uid vid : Nat} (amt : ℚ)
    (hne : uid ≠ vid) :
    get_user (update_balance s vid amt).1 uid = get_user s uid := by
  unfold update_balance
  cases hv : get_user s vid with
  | none => rfl
  | some v =>
    unfold get_user
    show (List.map _ s.users).find? _ = _
    rw [find?_map_id_pres _ _ (fun w => by by_cases h : w.user_id = vid <;> simp [h]) uid]
    cases hp : s.users.find? (fun w => w.user_id == uid) with
    | none => rfl
    | some w =>
      have hwid : w.user_id = uid := by simpa using List.find?_some hp
      have hcond : (w.user_id == vid) = false := by simp [hwid, hne]
      simp [hcond]
      intro h
      exact absurd (hwid.symm.trans h) hne

lemma get_user_add_transaction (s : Store) (vid : Nat) (amt : ℚ) (ty d : String)
    (uid : Nat) :
    get_user (add_transaction s vid amt ty d).1 uid = get_user s uid := rfl

lemma get_user_update_last_click_self {s : Store} {uid : Nat} {u : User} (ts : Nat)
    (hu : get_user s uid = some u) :
    get_user (update_last_click s uid ts).1 uid = some { u with last_click := some ts } := by
  have hid := get_user_id hu
  unfold update_last_click
  rw [if_pos (any_id_true_of_get_user hu)]
  unfold get_user at hu ⊢
  show (List.map _ s.users).find? _ = _
  rw [find?_map_id_pres _ _ (fun v => by by_cases h : v.user_id = uid <;> simp [h]) uid, hu]
  simp [hid]

lemma get_user_update_game_stats_self {s : Store} {uid : Nat} {u : User} (w : ℚ) (b : Bool)
    (hu : get_user s uid = some u) :
    get_user (update_game_stats s uid w b).1 uid =
      some { u with
              total_wagered := u.total_wagered + w,
              games_played := u.games_played + 1,
              games_won := if b then u.games_won + 1 else u.games_won } := by
  have hid := get_user_id hu
  unfold update_game_stats
  unfold get_user at hu ⊢
  rw [hu]
  show (List.map _ s.users).find? _ = _
  rw [find?_map_id_pres _ _ (fun v => by by_cases h : v.user_id = uid <;> simp [h]) uid, hu]
  simp [hid]

lemma refPres_refl (s : Store) : RefPres s s := fun _ u h => ⟨u, h, rfl⟩

lemma refPres_trans {s t w : Store} (h1 : RefPres s t) (h2 : RefPres t w) : RefPres s w := by
  intro uid u h
  obtain ⟨u1, hu1, he1⟩ := h1 uid u h
  obtain ⟨u2, hu2, he2⟩ := h2 uid u1 hu1
  exact ⟨u2, hu2, he2.trans he1⟩

lemma refPres_of_users_eq {s t : Store} (h : t.users = s.users) : RefPres s t := by
  intro uid u hu
  refine ⟨u, ?_, rfl⟩
  unfold get_user at hu ⊢
  rw [h]
  exact hu

lemma refPres_of_map {s t : Store} (F : User → User)
    (hus : t.users = s.users.map F)
    (hid : ∀ v, (F v).user_id = v.user_id)
    (href : ∀ v, (F v).referrer_id = v.referrer_id) : RefPres s t := by
  intro uid u h
  refine ⟨F u, ?_, href u⟩
  unfold get_user at h ⊢
  rw [hus, find?_map_id_pres _ _ hid, h]
  rfl

lemma refPres_update_balance (s : Store) (vid : Nat) (amt : ℚ) :
    RefPres s (update_balance s vid amt).1 := by
  unfold update_balance
  cases hv : get_user s vid with
  | none => exact refPres_refl s
  | some v =>
    exact refPres_of_map _ rfl
      (fun w => by by_cases h : w.user_id = vid <;> simp [h])
      (fun w => by by_cases h : w.user_id = vid <;> simp [h])

lemma refPres_update_last_click (s : Store) (vid ts : Nat) :
    RefPres s (update_last_click s vid ts).1 := by
  unfold update_last_click
  by_cases h : s.users.any (fun v => v.user_id == vid) = true
  · rw [if_pos h]
    exact refPres_of_map _ rfl
      (fun w => by by_cases hw : w.user_id = vid <;> simp [hw])
      (fun w => by by_cases hw : w.user_id = vid <;> simp [hw])
  · rw [if_neg h]
    exact refPres_refl s

lemma refPres_update_game_stats (s : Store) (vid : Nat) (w : ℚ) (b : Bool) :
    RefPres s (update_game_stats s vid w b).1 := by
  unfold update_game_stats
  cases hv : get_user s vid with
  | none => exact refPres_refl s
  | some v =>
    exact refPres_of_map _ rfl
      (fun x => by by_cases h : x.user_id = vid <;> simp [h])
      (fun x => by by_cases h : x.user_id = vid <;> simp [h])

lemma refPres_credit (s : Store) (vid : Nat) (amt : ℚ) (ty d : String) :
    RefPres s (add_transaction (update_balance s vid amt).1 vid amt ty d).1 :=
  refPres_trans (refPres_update_balance s vid amt) (refPres_of_users_eq rfl)

lemma refPres_settle (s : Store) (vid : Nat) (amt w : ℚ) (b : Bool) (ty d : String) :
    RefPres s
      (update_game_stats (add_transaction (update_balance s vid amt).1 vid amt ty d).1
        vid w b).1 :=
  refPres_trans (refPres_credit s vid amt ty d) (refPres_update_game_stats _ vid w b)

lemma refPres_click_core (s : Store) (vid ts : Nat) (r : ℚ) (ty d : String) :
    RefPres s
      (add_transaction (update_last_click (update_balance s vid r).1 vid ts).1
        vid r ty d).1 :=
  refPres_trans (refPres_update_balance s vid r)
    (refPres_trans (refPres_update_last_click _ vid ts) (refPres_of_users_eq rfl))

lemma refPres_subs_fold (l : List Nat) (vid : Nat) (s : Store) :
    RefPres s (l.foldl (fun acc sid => (update_user_sponsor_status acc vid sid true).1) s) := by
  induction l generalizing s with
  | nil => exact refPres_refl s
  | cons a t ih =>
    simp only [List.foldl_cons]
    refine refPres_trans ?_ (ih _)
    unfold update_user_sponsor_status
    by_cases h : s.user_sponsors.any
        (fun r => r.user_id == vid && r.sponsor_id == a) = true
    · rw [if_pos h]
      exact refPres_of_users_eq rfl
    · rw [if_neg h]
      exact refPres_of_users_eq rfl

lemma refPres_handle_click (s : Store) (vid now : Nat) :
    RefPres s (handle_click s vid now).1 := by
  unfold handle_click
  cases hu : get_user s vid with
  | none => exact refPres_refl s
  | some user =>
    dsimp only
    split_ifs with hcd
    · exact refPres_refl s
    · cases href : user.referrer_id with
      | none => exact refPres_click_core s vid now _ _ _
      | some rid =>
        exact refPres_trans (refPres_click_core s vid now _ _ _)
          (refPres_credit _ rid _ _ _)

lemma refPres_handle_bet_input (s : Store) (vid : Nat) (bet : ℚ) (gt choice : String)
    (r1 r2 : ℚ) : RefPres s (handle_bet_input s vid bet gt choice r1 r2).1 := by
  unfold handle_bet_input
  cases hu : get_user s vid with
  | none => exact refPres_refl s
  | some user =>
    dsimp only
    split_ifs with h1 h2 h3 h4
    · exact refPres_refl s
    · exact refPres_refl s
    · exact refPres_settle s vid _ bet true _ _
    · exact refPres_settle s vid _ bet false _ _
    · exact refPres_refl s

lemma refPres_handle_crash_play (s : Store) (vid : Nat) (bet : ℚ) (r1 r2 r3 r4 : ℚ) :
    RefPres s (handle_crash_play s vid bet r1 r2 r3 r4).1 := by
  unfold handle_crash_play
  cases hu : get_user s vid with
  | none => exact refPres_refl s
  | some user =>
    dsimp only
    split_ifs with h1 h2
    · exact refPres_refl s
    · exact refPres_settle s vid _ bet true _ _
    · exact refPres_settle s vid _ bet false _ _

lemma refPres_handle_slot_play (s : Store) (vid : Nat) (bet : ℚ) (i1 i2 i3 : Nat) :
    RefPres s (handle_slot_play s vid bet i1 i2 i3).1 := by
  unfold handle_slot_play
  cases hu : get_user s vid with
  | none => exact refPres_refl s
  | some user =>
    dsimp only
    split_ifs with h1 h2
    · exact refPres_refl s
    · exact refPres_settle s vid _ bet true _ _
    · exact refPres_settle s vid _ bet false _ _

lemma refPres_handle_dice_bet (s : Store) (vid : Nat) (bet : ℚ) (n roll : Nat) :
    RefPres s (handle_dice_bet s vid bet n roll).1 := by
  unfold handle_dice_bet
  cases hu : get_user s vid with
  | none => exact refPres_refl s
  | some user =>
    dsimp only
    split_ifs with h1 h2 h3
    · exact refPres_refl s
    · exact refPres_refl s
    · exact refPres_settle s vid _ bet true _ _
    · exact refPres_settle s vid _ bet false _ _

lemma refPres_handle_jackpot_play (s : Store) (vid : Nat) (bet : ℚ) (rand : Nat → ℚ) :
    RefPres s (handle_jackpot_play s vid bet rand).1 := by
  unfold handle_jackpot_play
  cases hu : get_user s vid with
  | none => exact refPres_refl s
  | some user =>
    dsimp only
    split_ifs with h1 h2
    · exact refPres_refl s
    · exact refPres_trans (refPres_settle s vid (-bet) bet false _ _)
        (refPres_settle _ vid _ 0 true _ _)
    · exact refPres_settle s vid (-bet) bet false _ _

lemma refPres_handle_withdraw (s : Store) (vid : Nat) (amount : ℚ) :
    RefPres s (handle_withdraw s vid amount).1 := by
  unfold handle_withdraw
  cases hu : get_user s vid with
  | none => exact refPres_refl s
  | some user =>
    dsimp only [create_withdrawal]
    split_ifs with h1 h2
    · exact refPres_refl s
    · exact refPres_refl s
    · exact refPres_trans
        (@refPres_of_users_eq s
          { s with
              withdrawals := s.withdrawals ++
                [{ id := s.withdrawals.length, user_id := vid, amount := amount,
                   status := "pending", created_at := s.clock }],
              clock := s.clock + 1 } rfl)
        (refPres_credit _ vid (-amount) "withdrawal" "payout request")

lemma refPres_create_other (s : Store) (v : Nat) (name : String) (ref : Option Nat)
    (uid : Nat) (hne : uid ≠ v) (u : User) (hu : get_user s uid = some u) :
    ∃ u', get_user (create_user s v name ref).1 uid = some u' ∧
      u'.referrer_id = u.referrer_id := by
  unfold create_user
  dsimp only
  have hup : get_user
      { s with
          users := upsertUser s.users
            { user_id := v,
              username := if name == "" then "user_" ++ toString v else name,
              referrer_id := ref, created_at := s.clock, balance := 0,
              last_click := none, total_wagered := 0, games_played := 0, games_won := 0 },
          clock := s.clock + 1 } uid = some u := by
    unfold get_user
    rw [find?_upsert_other s.users _ uid hne]
    exact hu
  cases ref with
  | none => exact ⟨u, hup, rfl⟩
  | some rid =>
    dsimp only
    split
    · exact (refPres_trans (refPres_credit _ rid Config.REFERRAL_REWARD_REFERRER
          "referral_bonus" "invite bonus")
        (refPres_credit _ v Config.REFERRAL_REWARD_REFEREE
          "referral_bonus" "signup via referral link")) uid u hup
    · exact ⟨u, hup, rfl⟩

lemma get_user_create_self (s : Store) (v : Nat) (name : String) (ref : Option Nat) :
    ∃ u', get_user (create_user s v name ref).1 v = some u' ∧ u'.referrer_id = ref := by
  unfold create_user
  dsimp only
  have hup : get_user
      { s with
          users := upsertUser s.users
            { user_id := v,
              username := if name == "" then "user_" ++ toString v else name,
              referrer_id := ref, created_at := s.clock, balance := 0,
              last_click := none, total_wagered := 0, games_played := 0, games_won := 0 },
          clock := s.clock + 1 } v = some
            { user_id := v,
              username := if name == "" then "user_" ++ toString v else name,
              referrer_id := ref, created_at := s.clock, balance := 0,
              last_click := none, total_wagered := 0, games_played := 0, games_won := 0 } := by
    unfold get_user
    exact find?_upsert_self s.users
      { user_id := v,
        username := if name == "" then "user_" ++ toString v else name,
        referrer_id := ref, created_at := s.clock, balance := 0,
        last_click := none, total_wagered := 0, games_played := 0, games_won := 0 }
  cases ref with
  | none => exact ⟨_, hup, rfl⟩
  | some rid =>
    dsimp only
    split
    · obtain ⟨u', hu', he⟩ := (refPres_trans (refPres_credit _ rid Config.REFERRAL_REWARD_REFERRER
          "referral_bonus" "invite bonus")
        (refPres_credit _ v Config.REFERRAL_REWARD_REFEREE
          "referral_bonus" "signup via referral link")) v _ hup
      exact ⟨u', hu', he⟩
    · exact ⟨_, hup, rfl⟩

lemma fold_preserves (l : List Op) (s : Store) (h : WF s ∧ Conservation s) :
    WF (l.foldl step s) ∧ Conservation (l.foldl step s) := by
  induction l generalizing s with
  | nil => exact h
  | cons a t ih =>
    simp only [List.foldl_cons]
    exact ih _ (step_preserves s a h.1 h.2)

lemma initStore_inv : WF initStore ∧ Conservation initStore := by
  refine ⟨⟨by simp [initStore], ?_, ?_⟩, ?_⟩
  · intro u hu
    simp [initStore] at hu
  · intro t ht
    simp [initStore] at ht
  · intro u hu
    simp [initStore] at hu

/-- C1 (amended): after every sequence of balance-affecting operations from
the empty store, the stored balance of every account equals the sum of the
signed amounts of the transactions recorded for it since the creation time
stored in its row, i.e. since its most recent account-creation call.  The
claim as stated, summing over all transactions since the account first came
into existence, fails when the creation call is repeated, because the upsert
in Database.create_user resets the stored balance to zero and the stored
creation time while the earlier transactions persist. -/
theorem C1_conservation (ops : List Op) : Conservation (run ops) :=
  (fold_preserves ops initStore initStore_inv).2

/-- C1 counterexample: account 1 is created, earns one click reward of 0.2
with its matching transaction, and then the account-creation call is
repeated.  The stored balance is 0 while the signed amounts of all
transactions ever recorded for the account, every one of them recorded after
its first creation, sum to 1/5: the claimed equality fails after the second
account-creation operation. -/
theorem C1_counterexample :
    (get_user (run [Op.create 1 "a" none, Op.click 1 5, Op.create 1 "a" none]) 1).map
        User.balance = some 0 ∧
      txnSumAll
        (run [Op.create 1 "a" none, Op.click 1 5, Op.create 1 "a" none]).transactions 1 =
        1 / 5 ∧
      (0 : ℚ) ≠ 1 / 5 := by
  norm_num [run, step, initStore, create_user, upsertUser, handle_click, update_balance,
    update_last_click, update_game_stats, add_transaction, get_user, txnSumAll,
    Config.CLICK_REWARD, Config.CLICK_COOLDOWN, List.find?, List.filter]

/-- C6 (amended): the stored referrerId of an account is unchanged by every
operation that is not an account-creation call for that same account id, and
every account-creation call (first or repeated) sets the stored referrerId to
the referrer argument of that call: a repeated creation call therefore
overwrites it rather than leaving it fixed. -/
theorem C6_referrer_mutation :
    (∀ (s : Store) (op : Op) (uid : Nat) (u : User),
        get_user s uid = some u → Op.isCreateOf op uid = false →
        ∃ u', get_user (step s op) uid = some u' ∧ u'.referrer_id = u.referrer_id) ∧
    (∀ (s : Store) (uid : Nat) (name : String) (ref : Option Nat),
        ∃ u', get_user (step s (Op.create uid name ref)) uid = some u' ∧
          u'.referrer_id = ref) := by
  constructor
  · intro s op uid u hu hop
    cases op with
    | create v name ref =>
      have hne : uid ≠ v := by
        intro he
        subst he
        simp [Op.isCreateOf] at hop
      exact refPres_create_other s v name ref uid hne u hu
    | click v now => exact refPres_handle_click s v now uid u hu
    | flipRound v bet choice r1 r2 =>
      exact refPres_handle_bet_input s v bet "flip" choice r1 r2 uid u hu
    | crashRound v bet r1 r2 r3 r4 =>
      exact refPres_handle_crash_play s v bet r1 r2 r3 r4 uid u hu
    | slotRound v bet i1 i2 i3 => exact refPres_handle_slot_play s v bet i1 i2 i3 uid u hu
    | diceRound v bet n roll => exact refPres_handle_dice_bet s v bet n (1 + roll % 6) uid u hu
    | jackpotRound v bet rand => exact refPres_handle_jackpot_play s v bet rand uid u hu
    | withdrawOp v amount => exact refPres_handle_withdraw s v amount uid u hu
    | sponsorAdd => exact refPres_of_users_eq rfl uid u hu
    | checkSubs v => exact refPres_subs_fold s.sponsors v s uid u hu
  · intro s uid name ref
    exact get_user_create_self s uid name ref

/-- C6 witness: in a store holding account 1 with referrer 9, a click
operation keeps the referrer, and a creation call for the fresh id 2 with
referrer argument 1 stores referrer 1. -/
theorem C6_referrer_mutation_witness :
    (∃ u', get_user (step
        { users := [{ user_id := 1, username := "a", referrer_id := some 9,
                      created_at := 0, balance := 0, last_click := none,
                      total_wagered := 0, games_played := 0, games_won := 0 }],
          transactions := [], withdrawals := [], sponsors := [], user_sponsors := [],
          clock := 1 } (Op.click 1 0)) 1 = some u' ∧ u'.referrer_id = some 9) ∧
    (∃ u', get_user (step
        { users := [{ user_id := 1, username := "a", referrer_id := some 9,
                      created_at := 0, balance := 0, last_click := none,
                      total_wagered := 0, games_played := 0, games_won := 0 }],
          transactions := [], withdrawals := [], sponsors := [], user_sponsors := [],
          clock := 1 } (Op.create 2 "b" (some 1))) 2 = some u' ∧
      u'.referrer_id = some 1) :=
  ⟨C6_referrer_mutation.1 _ (Op.click 1 0) 1
      { user_id := 1, username := "a", referrer_id := some 9, created_at := 0,
        balance := 0, last_click := none, total_wagered := 0, games_played := 0,
        games_won := 0 } (by decide) (by decide),
    C6_referrer_mutation.2 _ 2 "b" (some 1)⟩

/-- C6 counterexample: account 2 is created with referrer 1; a repeated
account-creation call for the same id with referrer argument 3 changes the
stored referrerId from 1 to 3, so a later operation does alter it. -/
theorem C6_counterexample :
    (get_user (run [Op.create 1 "a" none, Op.create 2 "b" (some 1)]) 2).map
        User.referrer_id = some (some 1) ∧
      (get_user (run [Op.create 1 "a" none, Op.create 2 "b" (some 1),
          Op.create 2 "b" (some 3)]) 2).map User.referrer_id = some (some 3) ∧
      (some 3 : Option Nat) ≠ some 1 := by
  simp [run, step, initStore, create_user, upsertUser, update_balance,
    add_transaction, get_user, List.find?]

/-- Full characterization of a successful withdrawal: one pending row and one
negated withdrawal transaction are appended, and success is reported. -/
lemma handle_withdraw_spec (s : Store) (uid : Nat) (amount : ℚ) (user : User)
    (hu : get_user s uid = some user) (hb : ¬ user.balance < amount)
    (hr : ¬ (get_user_referrals s uid).2 < 3) :
    (handle_withdraw s uid amount).1.withdrawals = s.withdrawals ++
        [{ id := s.withdrawals.length, user_id := uid, amount := amount,
           status := "pending", created_at := s.clock }] ∧
      (handle_withdraw s uid amount).1.transactions = s.transactions ++
        [{ user_id := uid, amount := -amount, type := "withdrawal",
           description := "payout request", created_at := s.clock + 1 + 1 }] ∧
      (handle_withdraw s uid amount).2 = .ok s.withdrawals.length := by
  have hu' : s.users.find? (fun v => v.user_id == uid) = some user := hu
  unfold handle_withdraw
  rw [hu]
  dsimp only
  rw [if_neg hb, if_neg hr]
  refine ⟨?_, ?_, ?_⟩ <;>
    simp [create_withdrawal, update_balance, add_transaction, get_user, hu']

/-- C3: with an existing account, the withdrawal is refused (never reported
ok) whenever the active-referral count is below 3, regardless of balance; it
is refused with the insufficient-funds reply whenever the balance is below
the amount, regardless of referrals (the store is unchanged in both cases);
and when balance and referral conditions both hold, exactly one pending
Withdrawal row for the amount and exactly one debit transaction of kind
withdrawal are appended. -/
theorem C3_withdraw_gate (s : Store) (uid : Nat) (amount : ℚ) (user : User)
    (hu : get_user s uid = some user) :
    ((get_user_referrals s uid).2 < 3 →
        (handle_withdraw s uid amount).1 = s ∧
        ∀ wid, (handle_withdraw s uid amount).2 ≠ .ok wid) ∧
    (user.balance < amount →
        (handle_withdraw s uid amount).1 = s ∧
        (handle_withdraw s uid amount).2 = .insufficient) ∧
    (¬ user.balance < amount → ¬ (get_user_referrals s uid).2 < 3 →
        ∃ w t, (handle_withdraw s uid amount).1.withdrawals = s.withdrawals ++ [w] ∧
          w.user_id = uid ∧ w.amount = amount ∧ w.status = "pending" ∧
          (handle_withdraw s uid amount).1.transactions = s.transactions ++ [t] ∧
          t.user_id = uid ∧ t.amount = -amount ∧ t.type = "withdrawal") := by
  refine ⟨?_, ?_, ?_⟩
  · intro hr3
    unfold handle_withdraw
    rw [hu]
    dsimp only
    by_cases hb : user.balance < amount
    · rw [if_pos hb]
      exact ⟨rfl, fun wid => by simp⟩
    · rw [if_neg hb, if_pos hr3]
      exact ⟨rfl, fun wid => by simp⟩
  · intro hb
    unfold handle_withdraw
    rw [hu]
    dsimp only
    rw [if_pos hb]
    exact ⟨rfl, rfl⟩
  · intro hb hr
    obtain ⟨hw, ht, _⟩ := handle_withdraw_spec s uid amount user hu hb hr
    exact ⟨_, _, hw, rfl, rfl, rfl, ht, rfl, rfl, rfl⟩

/-- C3 witness: account 10 with balance 20 and three active referrals
withdraws 15; one pending row of 15 and one transaction of -15 result. -/
theorem C3_withdraw_gate_witness :
    ∃ w t, (handle_withdraw egStore 10 15).1.withdrawals = egStore.withdrawals ++ [w] ∧
      w.user_id = 10 ∧ w.amount = 15 ∧ w.status = "pending" ∧
      (handle_withdraw egStore 10 15).1.transactions = egStore.transactions ++ [t] ∧
      t.user_id = 10 ∧ t.amount = -15 ∧ t.type = "withdrawal" :=
  (C3_withdraw_gate egStore 10 15 egUser (by decide)).2.2 (by decide) (by decide)

/-- C4 (amended): the withdrawal gate performs no re-validation of the amount
against the configured tier list: once the balance and active-referral checks
pass, any requested amount is accepted and mutates the store, whether or not
it belongs to Config.WITHDRAWAL_AMOUNTS; only the front-end menu restricts
the offered amounts to that list. -/
theorem C4_no_tier_validation (s : Store) (uid : Nat) (amount : ℚ) (user : User)
    (hu : get_user s uid = some user) (hb : ¬ user.balance < amount)
    (hr : ¬ (get_user_referrals s uid).2 < 3) :
    (∃ w, (handle_withdraw s uid amount).1.withdrawals = s.withdrawals ++ [w] ∧
        w.user_id = uid ∧ w.amount = amount ∧ w.status = "pending") ∧
      (∃ wid, (handle_withdraw s uid amount).2 = .ok wid) ∧
      withdraw_menu_amounts = Config.WITHDRAWAL_AMOUNTS := by
  obtain ⟨hw, ht, hres⟩ := handle_withdraw_spec s uid amount user hu hb hr
  exact ⟨⟨_, hw, rfl, rfl, rfl⟩, ⟨_, hres⟩, rfl⟩

/-- C4 witness: the amount 7 is outside the configured tiers, yet the gate
accepts it for the eligible account 10. -/
theorem C4_no_tier_validation_witness :
    ((7 : ℚ) ∉ Config.WITHDRAWAL_AMOUNTS) ∧
      (∃ w, (handle_withdraw egStore 10 7).1.withdrawals = egStore.withdrawals ++ [w] ∧
        w.user_id = 10 ∧ w.amount = 7 ∧ w.status = "pending") ∧
      (∃ wid, (handle_withdraw egStore 10 7).2 = .ok wid) :=
  ⟨by decide,
    (C4_no_tier_validation egStore 10 7 egUser (by decide) (by decide) (by decide)).1,
    (C4_no_tier_validation egStore 10 7 egUser (by decide) (by decide) (by decide)).2.1⟩

/-- C4 counterexample: the amount 7 is not in the configured tier set, but
handle_withdraw does not reject it: it creates a withdrawal row before any
tier check could fire, so no re-validation against the tier set exists. -/
theorem C4_counterexample :
    ((7 : ℚ) ∉ Config.WITHDRAWAL_AMOUNTS) ∧
      (handle_withdraw egStore 10 7).2 = .ok 0 ∧
      (handle_withdraw egStore 10 7).1.withdrawals ≠ [] := by
  obtain ⟨hw, ht, hres⟩ := handle_withdraw_spec egStore 10 7 egUser
    (by decide) (by decide) (by decide)
  refine ⟨by decide, hres, ?_⟩
  rw [hw]
  simp

/-- C5: with the store call that updates the balance and the one that inserts
the debit transaction failing after the withdrawal row was inserted, the
handler still reports success and leaves a pending Withdrawal row with no
debit transaction and an unchanged balance: the inconsistent state is
reachable, not prevented. -/
theorem C5_withdraw_not_atomic :
    (handle_withdraw_fallible egStore 10 15 true false false).2 = WithdrawResult.ok 0 ∧
      (handle_withdraw_fallible egStore 10 15 true false false).1.withdrawals =
        [{ id := 0, user_id := 10, amount := 15, status := "pending", created_at := 1 }] ∧
      (handle_withdraw_fallible egStore 10 15 true false false).1.transactions = [] ∧
      (get_user (handle_withdraw_fallible egStore 10 15 true false false).1 10).map
        User.balance = some 20 := by
  decide

/-- C2 (amended): every debit attempt whose amount exceeds the balance is
refused with the store unchanged (no transaction written, balance intact).
The refusal carries the insufficient-funds reply for the callback games
(crash, slot, jackpot) and the withdrawal, and for the typed-bet games (flip,
dice) exactly when the bet passes the minimum-bet check; a bet below the
minimum is refused with the minimum-bet reply instead, even when it also
exceeds the balance. -/
theorem C2_insufficient_refusal (s : Store) (uid : Nat) (bet : ℚ)
    (gt choice : String) (r1 r2 r3 r4 : ℚ) (i1 i2 i3 n roll : Nat) (rand : Nat → ℚ)
    (user : User) (hu : get_user s uid = some user) (hb : user.balance < bet) :
    ((handle_bet_input s uid bet gt choice r1 r2).1 = s ∧
      (¬ bet < Config.MIN_BETS_flip →
        (handle_bet_input s uid bet gt choice r1 r2).2 = .insufficient) ∧
      (bet < Config.MIN_BETS_flip →
        (handle_bet_input s uid bet gt choice r1 r2).2 = .belowMin)) ∧
    ((handle_crash_play s uid bet r1 r2 r3 r4).1 = s ∧
      (handle_crash_play s uid bet r1 r2 r3 r4).2 = .insufficient) ∧
    ((handle_slot_play s uid bet i1 i2 i3).1 = s ∧
      (handle_slot_play s uid bet i1 i2 i3).2 = .insufficient) ∧
    ((handle_dice_bet s uid bet n roll).1 = s ∧
      (¬ bet < Config.MIN_BETS_dice →
        (handle_dice_bet s uid bet n roll).2 = .insufficient) ∧
      (bet < Config.MIN_BETS_dice →
        (handle_dice_bet s uid bet n roll).2 = .belowMin)) ∧
    ((handle_jackpot_play s uid bet rand).1 = s ∧
      (handle_jackpot_play s uid bet rand).2 = .insufficient) ∧
    ((handle_withdraw s uid bet).1 = s ∧
      (handle_withdraw s uid bet).2 = .insufficient) := by
  refine ⟨?_, ?_, ?_, ?_, ?_, ?_⟩
  · unfold handle_bet_input
    rw [hu]
    dsimp only
    by_cases hmin : bet < Config.MIN_BETS_flip
    · rw [if_pos hmin]
      exact ⟨rfl, fun hc => absurd hmin hc, fun _ => rfl⟩
    · rw [if_neg hmin, if_pos hb]
      exact ⟨rfl, fun _ => rfl, fun hc => absurd hc hmin⟩
  · unfold handle_crash_play
    rw [hu]
    dsimp only
    rw [if_pos hb]
    exact ⟨rfl, rfl⟩
  · unfold handle_slot_play
    rw [hu]
    dsimp only
    rw [if_pos hb]
    exact ⟨rfl, rfl⟩
  · unfold handle_dice_bet
    rw [hu]
    dsimp only
    by_cases hmin : bet < Config.MIN_BETS_dice
    · rw [if_pos hmin]
      exact ⟨rfl, fun hc => absurd hmin hc, fun _ => rfl⟩
    · rw [if_neg hmin, if_pos hb]
      exact ⟨rfl, fun _ => rfl, fun hc => absurd hc hmin⟩
  · unfold handle_jackpot_play
    rw [hu]
    dsimp only
    rw [if_pos hb]
    exact ⟨rfl, rfl⟩
  · unfold handle_withdraw
    rw [hu]
    dsimp only
    rw [if_pos hb]
    exact ⟨rfl, rfl⟩

/-- C2 witness: account 10 with balance 20 attempts a flip bet of 25 and a
withdrawal of 25; both are refused with the insufficient-funds reply and the
store is unchanged. -/
theorem C2_insufficient_refusal_witness :
    ((handle_bet_input egStore 10 25 "flip" "heads" 0 0).1 = egStore ∧
      (handle_bet_input egStore 10 25 "flip" "heads" 0 0).2 = .insufficient) ∧
    ((handle_withdraw egStore 10 25).1 = egStore ∧
      (handle_withdraw egStore 10 25).2 = .insufficient) :=
  ⟨⟨(C2_insufficient_refusal egStore 10 25 "flip" "heads" 0 0 0 0 0 0 0 0 0
        (fun _ => 0) egUser (by decide) (by decide)).1.1,
    (C2_insufficient_refusal egStore 10 25 "flip" "heads" 0 0 0 0 0 0 0 0 0
        (fun _ => 0) egUser (by decide) (by decide)).1.2.1 (by decide)⟩,
    (C2_insufficient_refusal egStore 10 25 "flip" "heads" 0 0 0 0 0 0 0 0 0
        (fun _ => 0) egUser (by decide) (by decide)).2.2.2.2.2⟩

/-- C2 counterexample: account 7 holds 1/5 and bets 1/2 on flip; the bet
exceeds the balance, yet the refusal reply is the minimum-bet error and not
the insufficient-funds error, because the minimum-bet check runs first. -/
theorem C2_counterexample :
    lowUser.balance < 1/2 ∧
      (handle_bet_input lowStore 7 (1/2) "flip" "heads" 0 0).2 = .belowMin ∧
      BetResult.belowMin ≠ BetResult.insufficient := by
  refine ⟨by norm_num [lowUser], ?_, by simp⟩
  unfold handle_bet_input
  have hu : get_user lowStore 7 = some lowUser := rfl
  rw [hu]
  dsimp only
  rw [if_pos (by norm_num [Config.MIN_BETS_flip])]

lemma update_balance_transactions (s : Store) (uid : Nat) (amt : ℚ) :
    (update_balance s uid amt).1.transactions = s.transactions := by
  unfold update_balance
  cases get_user s uid <;> rfl

lemma get_user_add_transaction_eq {s : Store} {uid : Nat} {o : Option User}
    (v : Nat) (a : ℚ) (ty d : String) (h : get_user s uid = o) :
    get_user (add_transaction s v a ty d).1 uid = o := h

lemma add_transaction_transactions (s : Store) (v : Nat) (a : ℚ) (ty d : String) :
    (add_transaction s v a ty d).1.transactions =
      s.transactions ++
        [{ user_id := v, amount := a, type := ty, description := d,
           created_at := s.clock }] := rfl

/-- C8: in every CoinFlip round the special-event draw is consumed first:
whenever it is below the configured special-event chance the round is a loss
with payout exactly 0, for every main draw and every chosen side; otherwise
the round is a win exactly when the main draw is below the configured win
chance, and a win pays exactly bet times the configured multiplier 2.  The
configured chances are those of config.py: 0.015 and 0.49. -/
theorem C8_flip_special_precedence (bet : ℚ) (choice : String) (r_special r_main : ℚ) :
    (r_special < Config.flip_special_event_chance →
        play_flip bet choice r_special r_main = (false, 0)) ∧
    (¬ r_special < Config.flip_special_event_chance →
        r_main < Config.flip_win_chance →
        play_flip bet choice r_special r_main = (true, bet * Config.flip_multiplier)) ∧
    (¬ r_special < Config.flip_special_event_chance →
        ¬ r_main < Config.flip_win_chance →
        play_flip bet choice r_special r_main = (false, 0)) := by
  unfold play_flip
  refine ⟨fun h => by rw [if_pos h], fun h1 h2 => by rw [if_neg h1, if_pos h2],
    fun h1 h2 => by rw [if_neg h1, if_neg h2]⟩

/-- C8 witness: with the special draw firing (0 below 0.015) the round loses
with payout 0 whatever the main draw; with the special draw not firing (1)
and a winning main draw (0 below 0.49) a bet of 5 pays 10. -/
theorem C8_flip_special_precedence_witness :
    play_flip 5 "heads" 0 7 = (false, 0) ∧
      play_flip 5 "heads" 1 0 = (true, 5 * Config.flip_multiplier) :=
  ⟨(C8_flip_special_precedence 5 "heads" 0 7).1 (by decide),
    (C8_flip_special_precedence 5 "heads" 1 0).2.1 (by decide) (by decide)⟩

/-- C7: creating a fresh account B with an existing referrer A credits A with
exactly the referrer reward 3, leaves B with balance exactly the referee
reward 2, and appends exactly two referral_bonus transactions, the first for
A with amount 3 and the second for B with amount 2; when the referrer row
does not exist, the account is still created, the creation call reports
success, and no transaction at all is appended. -/
theorem C7_referral_bonus :
    (∀ (s : Store) (A B : Nat) (nameB : String) (uA : User),
        get_user s A = some uA → get_user s B = none → A ≠ B →
        (create_user s B nameB (some A)).2 = true ∧
        (∃ uA', get_user (create_user s B nameB (some A)).1 A = some uA' ∧
          uA'.balance = uA.balance + Config.REFERRAL_REWARD_REFERRER) ∧
        (∃ uB', get_user (create_user s B nameB (some A)).1 B = some uB' ∧
          uB'.balance = Config.REFERRAL_REWARD_REFEREE) ∧
        (create_user s B nameB (some A)).1.transactions.map
            (fun t => (t.user_id, t.amount, t.type)) =
          s.transactions.map (fun t => (t.user_id, t.amount, t.type)) ++
            [(A, Config.REFERRAL_REWARD_REFERRER, "referral_bonus"),
             (B, Config.REFERRAL_REWARD_REFEREE, "referral_bonus")]) ∧
    (∀ (s : Store) (R B : Nat) (nameB : String),
        get_user s R = none → R ≠ B →
        (create_user s B nameB (some R)).2 = true ∧
        (create_user s B nameB (some R)).1.transactions = s.transactions ∧
        ∃ uB', get_user (create_user s B nameB (some R)).1 B = some uB') := by
  constructor
  · intro s A B nameB uA hA hB hAB
    have hA1 : get_user
        { s with
            users := upsertUser s.users
              { user_id := B,
                username := if nameB == "" then "user_" ++ toString B else nameB,
                referrer_id := some A, created_at := s.clock, balance := 0,
                last_click := none, total_wagered := 0, games_played := 0,
                games_won := 0 },
            clock := s.clock + 1 } A = some uA := by
      unfold get_user
      rw [find?_upsert_other s.users _ A hAB]
      exact hA
    have hB1 : get_user
        { s with
            users := upsertUser s.users
              { user_id := B,
                username := if nameB == "" then "user_" ++ toString B else nameB,
                referrer_id := some A, created_at := s.clock, balance := 0,
                last_click := none, total_wagered := 0, games_played := 0,
                games_won := 0 },
            clock := s.clock + 1 } B = some
              { user_id := B,
                username := if nameB == "" then "user_" ++ toString B else nameB,
                referrer_id := some A, created_at := s.clock, balance := 0,
                last_click := none, total_wagered := 0, games_played := 0,
                games_won := 0 } := by
      unfold get_user
      exact find?_upsert_self s.users
        { user_id := B,
          username := if nameB == "" then "user_" ++ toString B else nameB,
          referrer_id := some A, created_at := s.clock, balance := 0,
          last_click := none, total_wagered := 0, games_played := 0,
          games_won := 0 }
    have hA2 := get_user_update_balance_self Config.REFERRAL_REWARD_REFERRER hA1
    have hA3 := get_user_add_transaction_eq A Config.REFERRAL_REWARD_REFERRER
      "referral_bonus" "invite bonus" hA2
    have hB3 := get_user_add_transaction_eq A Config.REFERRAL_REWARD_REFERRER
      "referral_bonus" "invite bonus"
      ((get_user_update_balance_other Config.REFERRAL_REWARD_REFERRER
        (Ne.symm hAB)).trans hB1)
    have hB4 := get_user_update_balance_self Config.REFERRAL_REWARD_REFEREE hB3
    have hB5 := get_user_add_transaction_eq B Config.REFERRAL_REWARD_REFEREE
      "referral_bonus" "signup via referral link" hB4
    have hA4 := (get_user_update_balance_other Config.REFERRAL_REWARD_REFEREE
      hAB).trans hA3
    have hA5 := get_user_add_transaction_eq B Config.REFERRAL_REWARD_REFEREE
      "referral_bonus" "signup via referral link" hA4
    unfold create_user
    dsimp only
    rw [hA1]
    dsimp only
    refine ⟨rfl, ⟨_, hA5, rfl⟩, ⟨_, hB5, by simp⟩, ?_⟩
    simp [add_transaction_transactions, update_balance_transactions]
  · intro s R B nameB hR hRB
    have hR1 : get_user
        { s with
            users := upsertUser s.users
              { user_id := B,
                username := if nameB == "" then "user_" ++ toString B else nameB,
                referrer_id := some R, created_at := s.clock, balance := 0,
                last_click := none, total_wagered := 0, games_played := 0,
                games_won := 0 },
            clock := s.clock + 1 } R = none := by
      unfold get_user
      rw [find?_upsert_other s.users _ R hRB]
      exact hR
    unfold create_user
    dsimp only
    rw [hR1]
    have hB1 : get_user
        { s with
            users := upsertUser s.users
              { user_id := B,
                username := if nameB == "" then "user_" ++ toString B else nameB,
                referrer_id := some R, created_at := s.clock, balance := 0,
                last_click := none, total_wagered := 0, games_played := 0,
                games_won := 0 },
            clock := s.clock + 1 } B = some
              { user_id := B,
                username := if nameB == "" then "user_" ++ toString B else nameB,
                referrer_id := some R, created_at := s.clock, balance := 0,
                last_click := none, total_wagered := 0, games_played := 0,
                games_won := 0 } := by
      unfold get_user
      exact find?_upsert_self s.users
        { user_id := B,
          username := if nameB == "" then "user_" ++ toString B else nameB,
          referrer_id := some R, created_at := s.clock, balance := 0,
          last_click := none, total_wagered := 0, games_played := 0,
          games_won := 0 }
    exact ⟨rfl, rfl, ⟨_, hB1⟩⟩

/-- C7 witness: in a store holding only account 10 with balance 20, creating
account 2 with referrer 10 credits account 10 by 3, gives account 2 balance
2, and appends exactly the two referral_bonus transactions; creating account
3 with the absent referrer 99 appends no transaction and still succeeds. -/
theorem C7_referral_bonus_witness :
    ((create_user soloStore 2 "b" (some 10)).2 = true ∧
      (∃ uA', get_user (create_user soloStore 2 "b" (some 10)).1 10 = some uA' ∧
        uA'.balance = egUser.balance + Config.REFERRAL_REWARD_REFERRER) ∧
      (∃ uB', get_user (create_user soloStore 2 "b" (some 10)).1 2 = some uB' ∧
        uB'.balance = Config.REFERRAL_REWARD_REFEREE) ∧
      (create_user soloStore 2 "b" (some 10)).1.transactions.map
          (fun t => (t.user_id, t.amount, t.type)) =
        [(10, Config.REFERRAL_REWARD_REFERRER, "referral_bonus"),
         (2, Config.REFERRAL_REWARD_REFEREE, "referral_bonus")]) ∧
    ((create_user soloStore 3 "c" (some 99)).2 = true ∧
      (create_user soloStore 3 "c" (some 99)).1.transactions = []) :=
  ⟨⟨(C7_referral_bonus.1 soloStore 10 2 "b" egUser rfl rfl (by decide)).1,
    (C7_referral_bonus.1 soloStore 10 2 "b" egUser rfl rfl (by decide)).2.1,
    (C7_referral_bonus.1 soloStore 10 2 "b" egUser rfl rfl (by decide)).2.2.1,
    (C7_referral_bonus.1 soloStore 10 2 "b" egUser rfl rfl (by decide)).2.2.2⟩,
   ⟨(C7_referral_bonus.2 soloStore 99 3 "c" rfl (by decide)).1,
    (C7_referral_bonus.2 soloStore 99 3 "c" rfl (by decide)).2.1⟩⟩

lemma winCount_succ (n : Nat) (rand : Nat → ℚ) :
    winCount (n + 1) rand =
      winCount n rand + (if rand n < Config.jackpot_win_chance then 1 else 0) := by
  unfold winCount
  rw [List.range_succ, List.filter_append]
  by_cases h : rand n < Config.jackpot_win_chance <;> simp [h]

/-- The ticket loop pays 100 per winning ticket and counts the winners. -/
lemma jackpot_rounds_spec (tickets : Nat) (rand : Nat → ℚ) :
    jackpot_rounds tickets rand =
      (100 * (winCount tickets rand : ℚ), winCount tickets rand) := by
  induction tickets with
  | zero => simp [jackpot_rounds, winCount]
  | succ n ih =>
    unfold jackpot_rounds at ih ⊢
    rw [List.range_succ, List.foldl_append, ih, winCount_succ]
    by_cases h : rand n < Config.jackpot_win_chance
    · simp only [List.foldl_cons, List.foldl_nil, play_jackpot, if_pos h, if_true,
        Config.jackpot_multiplier]
      rw [Prod.mk.injEq]
      refine ⟨?_, rfl⟩
      push_cast
      ring
    · simp [play_jackpot, h]

lemma get_user_settle (amt w : ℚ) (b : Bool) (ty d : String)
    {s : Store} {uid : Nat} {u : User} (hu : get_user s uid = some u) :
    get_user (update_game_stats
        (add_transaction (update_balance s uid amt).1 uid amt ty d).1 uid w b).1 uid =
      some { u with balance := u.balance + amt,
                    total_wagered := u.total_wagered + w,
                    games_played := u.games_played + 1,
                    games_won := if b then u.games_won + 1 else u.games_won } := by
  have h1 := get_user_update_balance_self amt hu
  have h2 := get_user_add_transaction_eq uid amt ty d h1
  exact get_user_update_game_stats_self w b h2

/-- Full characterization of a jackpot round for an account with sufficient
balance: reported outcome and the final account row. -/
lemma handle_jackpot_play_spec (s : Store) (uid : Nat) (bet : ℚ) (rand : Nat → ℚ)
    (user : User) (hu : get_user s uid = some user) (hb : ¬ user.balance < bet) :
    (handle_jackpot_play s uid bet rand).2 =
      .played (decide (0 < winCount bet.floor.toNat rand)) (winCount bet.floor.toNat rand)
        (100 * (winCount bet.floor.toNat rand : ℚ)) ∧
    ∃ u', get_user (handle_jackpot_play s uid bet rand).1 uid = some u' ∧
      u'.balance = user.balance - bet + 100 * (winCount bet.floor.toNat rand : ℚ) ∧
      u'.total_wagered = user.total_wagered + bet ∧
      (0 < winCount bet.floor.toNat rand →
        u'.games_played = user.games_played + 2 ∧ u'.games_won = user.games_won + 1) ∧
      (winCount bet.floor.toNat rand = 0 →
        u'.games_played = user.games_played + 1 ∧ u'.games_won = user.games_won) := by
  unfold handle_jackpot_play
  rw [hu]
  dsimp only
  rw [if_neg hb, jackpot_rounds_spec]
  dsimp only
  by_cases hk : 0 < winCount bet.floor.toNat rand
  · have hcast : (0:ℚ) < (winCount bet.floor.toNat rand : ℚ) := by exact_mod_cast hk
    have hq : (0:ℚ) < 100 * (winCount bet.floor.toNat rand : ℚ) := by nlinarith
    rw [if_pos hq]
    have h1 := get_user_settle (-bet) bet false "game_lose" "jackpot ticket purchase" hu
    have h2 := get_user_settle (100 * (winCount bet.floor.toNat rand : ℚ)) 0 true
      "game_win" "jackpot win" h1
    refine ⟨rfl, _, h2, ?_, ?_, fun _ => ⟨rfl, rfl⟩, fun h0 => absurd hk (by omega)⟩
    · show user.balance + (-bet) + 100 * (winCount bet.floor.toNat rand : ℚ) =
        user.balance - bet + 100 * (winCount bet.floor.toNat rand : ℚ)
      ring
    · show user.total_wagered + bet + 0 = user.total_wagered + bet
      ring
  · have hk0 : winCount bet.floor.toNat rand = 0 := Nat.eq_zero_of_not_pos hk
    have hq : ¬ (0:ℚ) < 100 * (winCount bet.floor.toNat rand : ℚ) := by
      rw [hk0]
      norm_num
    rw [if_neg hq]
    have h1 := get_user_settle (-bet) bet false "game_lose" "jackpot ticket purchase" hu
    refine ⟨rfl, _, h1, ?_, rfl, fun hpos => absurd hpos hk, fun _ => ⟨rfl, rfl⟩⟩
    rw [hk0]
    push_cast
    ring

/-- C9: for a jackpot round of an account with sufficient balance, with N the
integer part of the bet as ticket count, each ticket i draws rand i and wins
exactly when the draw is below the configured chance 0.01; a winning ticket
at unit price pays exactly 100, the reported outcome is a win exactly when at
least one ticket wins, and the account balance changes by the bet debited
plus 100 per winning ticket (the credited payout is 100 times the number of
winning tickets). -/
theorem C9_jackpot_payout (s : Store) (uid : Nat) (bet : ℚ) (rand : Nat → ℚ)
    (user : User) (hu : get_user s uid = some user) (hb : ¬ user.balance < bet) :
    (handle_jackpot_play s uid bet rand).2 =
      .played (decide (0 < winCount bet.floor.toNat rand)) (winCount bet.floor.toNat rand)
        (100 * (winCount bet.floor.toNat rand : ℚ)) ∧
    (∀ r : ℚ, r < Config.jackpot_win_chance → play_jackpot 1 r = (true, 100)) ∧
    (∀ r : ℚ, ¬ r < Config.jackpot_win_chance → play_jackpot 1 r = (false, 0)) ∧
    ∃ u', get_user (handle_jackpot_play s uid bet rand).1 uid = some u' ∧
      u'.balance = user.balance - bet + 100 * (winCount bet.floor.toNat rand : ℚ) := by
  obtain ⟨hres, u', hg, hbal, _, _, _⟩ := handle_jackpot_play_spec s uid bet rand user hu hb
  refine ⟨hres, ?_, ?_, u', hg, hbal⟩
  · intro r hr
    unfold play_jackpot
    rw [if_pos hr]
    norm_num [Config.jackpot_multiplier]
  · intro r hr
    unfold play_jackpot
    rw [if_neg hr]

/-- C9 witness: account 10 with balance 20 buys 5 tickets with a random
stream that always draws 0, every ticket wins, the reported outcome is a win
with 5 winning tickets and payout 500, and a single winning draw pays 100. -/
theorem C9_jackpot_payout_witness :
    (handle_jackpot_play egStore 10 5 (fun _ => 0)).2 =
        JackpotResult.played true 5 500 ∧
      play_jackpot 1 0 = (true, 100) := by
  have h := C9_jackpot_payout egStore 10 5 (fun _ => 0) egUser (by decide) (by decide)
  refine ⟨?_, h.2.1 0 (by decide)⟩
  rw [h.1]
  have h5 : winCount (5:ℚ).floor.toNat (fun _ => 0) = 5 := by decide
  rw [h5]
  norm_num

/-- C10: in a jackpot round of an account with sufficient balance, when at
least one ticket wins, games_played is incremented twice (once by the debit
step, once by the credit step) while games_won is incremented once; when no
ticket wins, games_played is incremented exactly once and games_won is
unchanged. -/
theorem C10_jackpot_stats (s : Store) (uid : Nat) (bet : ℚ) (rand : Nat → ℚ)
    (user : User) (hu : get_user s uid = some user) (hb : ¬ user.balance < bet) :
    ∃ u', get_user (handle_jackpot_play s uid bet rand).1 uid = some u' ∧
      (0 < winCount bet.floor.toNat rand →
        u'.games_played = user.games_played + 2 ∧ u'.games_won = user.games_won + 1) ∧
      (winCount bet.floor.toNat rand = 0 →
        u'.games_played = user.games_played + 1 ∧ u'.games_won = user.games_won) := by
  obtain ⟨_, u', hg, _, _, hpos, hzero⟩ := handle_jackpot_play_spec s uid bet rand user hu hb
  exact ⟨u', hg, hpos, hzero⟩

/-- C10 witness: with every ticket winning (draws of 0), the stats of account
10 show two more games played and one more game won; with no ticket winning
(draws of 1), one more game played and the games won unchanged. -/
theorem C10_jackpot_stats_witness :
    (∃ u', get_user (handle_jackpot_play egStore 10 5 (fun _ => 0)).1 10 = some u' ∧
      u'.games_played = egUser.games_played + 2 ∧ u'.games_won = egUser.games_won + 1) ∧
    (∃ u', get_user (handle_jackpot_play egStore 10 5 (fun _ => 1)).1 10 = some u' ∧
      u'.games_played = egUser.games_played + 1 ∧ u'.games_won = egUser.games_won) := by
  constructor
  · obtain ⟨u', hg, hpos, _⟩ :=
      C10_jackpot_stats egStore 10 5 (fun _ => 0) egUser (by decide) (by decide)
    exact ⟨u', hg, (hpos (by decide)).1, (hpos (by decide)).2⟩
  · obtain ⟨u', hg, _, hzero⟩ :=
      C10_jackpot_stats egStore 10 5 (fun _ => 1) egUser (by decide) (by decide)
    exact ⟨u', hg, (hzero (by decide)).1, (hzero (by decide)).2⟩

end MonkeyStars
